import Mathlib

/-!
# Usage plugin of the Volcano scheduler

A shallow embedding of `pkg/scheduler/plugins/usage/usage.go` and theorems
about its constructor `New`, its admission predicate `predicateFn` and its
node-ordering function `nodeOrderFn`.

Modelling conventions.

* The `float64` values held by the usage and threshold maps are finite values,
  each identified with the rational number it denotes.  The comparison `>` of
  `predicateFn` is the comparison of these numbers.
* The arithmetic of `nodeOrderFn` is binary64 arithmetic (`Float64`): every
  operation returns the exact result rounded to nearest, ties to even, with
  53 significant bits, gradual underflow and overflow to infinity.  The two
  zeros are identified.
* Go `int` is modelled by `Int`; statements that depend on the 64-bit range
  carry it as a hypothesis.
* A Go `map[string]float64` is either the nil map or an allocated map.  The
  list of entries of an allocated map is read in the order in which a `range`
  loop enumerates it; since Go leaves that order unspecified, statements about
  "every enumeration order" quantify over the permutations of the list.
* A Go run-time panic is an explicit `Fault` returned through `Except`.
-/

namespace Usage

/-! ## Go run-time model -/

/-- Run-time panics that the code of this package can raise. -/
inductive Fault where
  /-- assignment to an entry in a nil map -/
  | nilMapWrite
  /-- failed single-value type assertion `x.(T)` -/
  | typeAssertion
  deriving DecidableEq, Repr

/-- Go `map[string]float64`: the nil map, or an allocated map with its entries. -/
inductive GoMap where
  | nilMap
  | alloc (kvs : List (String × ℚ))
  deriving DecidableEq

namespace GoMap

/-- Entries enumerated by `for k, v := range m`; ranging over a nil map runs
zero iterations. -/
def entries : GoMap → List (String × ℚ)
  | nilMap => []
  | alloc kvs => kvs

/-- Two-result index expression `v, ok := m[k]`. -/
def lookup (m : GoMap) (k : String) : Option ℚ :=
  (m.entries.find? (fun e => e.1 == k)).map (fun e => e.2)

/-- One-result index expression `m[k]`: the zero value when `k` is absent. -/
def index (m : GoMap) (k : String) : ℚ :=
  (m.lookup k).getD 0

/-- Assignment `m[k] = v`: panics on the nil map, otherwise overwrites the
entry for `k` or adds one. -/
def set (m : GoMap) (k : String) (v : ℚ) : Except Fault GoMap :=
  match m with
  | nilMap => .error Fault.nilMapWrite
  | alloc kvs => .ok (alloc (kvs.filter (fun e => !(e.1 == k)) ++ [(k, v)]))

/-- Go `delete(m, k)`: a no-op on the nil map. -/
def delete (m : GoMap) (k : String) : GoMap :=
  match m with
  | nilMap => nilMap
  | alloc kvs => alloc (kvs.filter (fun e => !(e.1 == k)))

end GoMap

/-- Characters of `s` contain `substr` as a contiguous block. -/
def containsChars : List Char → List Char → Bool
  | [], substr => substr.isPrefixOf []
  | c :: cs, substr => substr.isPrefixOf (c :: cs) || containsChars cs substr

/-- Go `strings.Contains(s, substr)`. -/
def stringsContains (s substr : String) : Bool :=
  containsChars s.data substr.data

/-- Go `strings.HasPrefix(s, prefix)`. -/
def stringsHasPrefix (s pre : String) : Bool :=
  pre.data.isPrefixOf s.data

/-- Replace the first occurrence of `old` by `new`. -/
def replaceFirstChars (old new : List Char) : List Char → List Char
  | [] => if old.isPrefixOf [] then new else []
  | c :: cs =>
    if old.isPrefixOf (c :: cs) then new ++ (c :: cs).drop old.length
    else c :: replaceFirstChars old new cs

/-- Go `strings.Replace(s, old, new, 1)`. -/
def stringsReplace1 (s old new : String) : String :=
  ⟨replaceFirstChars old.data new.data s.data⟩

/-! ## Collaborator types (`framework`, `api`) -/

/-- Dynamic values held by `framework.Arguments` (`map[string]interface{}`). -/
inductive ArgValue where
  | int (i : Int)
  | float (q : ℚ)
  | str (s : String)
  | floatMap (m : GoMap)
  deriving DecidableEq

/-- `framework.Arguments`: plugin arguments by key. -/
abbrev Arguments := List (String × ArgValue)

/-- Index expression `args[key]` with its presence flag. -/
def Arguments.get (a : Arguments) (key : String) : Option ArgValue :=
  (a.find? (fun e => e.1 == key)).map (fun e => e.2)

/-- Modelled from the spec: `framework.Arguments.GetInt` is not part of the
sources at hand.  It stores the integer found under `key` through the
pointer and leaves the pointed-to default untouched when the key is absent or
does not hold an integer (the spec's "optional scalar ... defaulting to `1`").
The model takes the current value and returns the new one. -/
def Arguments.GetInt (a : Arguments) (ptr : Int) (key : String) : Int :=
  match a.get key with
  | some (ArgValue.int v) => v
  | _ => ptr

/-- Fields of `api.TaskInfo` read by the plugin. -/
structure TaskInfo where
  Namespace : String
  Name : String
  deriving DecidableEq

/-- Usage record behind `node.ResourceUsage`. -/
structure NodeUsage where
  CpuUsageAvg : GoMap
  MemUsageAvg : GoMap
  deriving DecidableEq

/-- Fields of `api.NodeInfo` read by the plugin. -/
structure NodeInfo where
  Name : String
  ResourceUsage : NodeUsage
  deriving DecidableEq

/-! ## The plugin -/

/-- Name of the plugin. -/
def PluginName : String := "usage"
/-- Token that marks a CPU threshold key. -/
def cpuUsageAvgPrefix : String := "CpuUsageAvg."
/-- Token that marks a memory threshold key. -/
def memUsageAvgPrefix : String := "MemUsageAvg."
/-- Key of the thresholds section in the plugin arguments. -/
def thresholdSection : String := "thresholds"
/-- Window label read by `nodeOrderFn`. -/
def cpuUsageAvg5m : String := "5m"

/-- Thresholds per window label, for CPU and for memory. -/
structure thresholdConfig where
  cpuUsageAvg : GoMap
  memUsageAvg : GoMap
  deriving DecidableEq

/-- The plugin object: scoring weight and thresholds. -/
structure usagePlugin where
  weight : Int
  threshold : thresholdConfig
  deriving DecidableEq

/-- Type assertion `x.(map[string]float64)` in its single-value form. -/
def assertFloatMap : Option ArgValue → Except Fault GoMap
  | some (ArgValue.floatMap m) => .ok m
  | _ => .error Fault.typeAssertion

/-- Body of the `for k, v := range ...` loop of `New`. -/
def newLoopBody (thresholdStore : thresholdConfig) (k : String) (v : ℚ) :
    Except Fault thresholdConfig := do
  let s1 ←
    if stringsContains k cpuUsageAvgPrefix then do
      let m ← thresholdStore.cpuUsageAvg.set (stringsReplace1 k cpuUsageAvgPrefix "") v
      pure { thresholdStore with cpuUsageAvg := m }
    else pure thresholdStore
  if stringsContains k memUsageAvgPrefix then do
    let m ← s1.memUsageAvg.set (stringsReplace1 k memUsageAvgPrefix "") v
    pure { s1 with memUsageAvg := m }
  else pure s1

/-- The loop of `New` over the entries in enumeration order. -/
def newLoop : thresholdConfig → List (String × ℚ) → Except Fault thresholdConfig
  | thresholdStore, [] => .ok thresholdStore
  | thresholdStore, (k, v) :: rest =>
    match newLoopBody thresholdStore k v with
    | .error f => .error f
    | .ok s => newLoop s rest

/-- `New`: builds the plugin from its arguments. -/
def New (args : Arguments) : Except Fault usagePlugin :=
  let thresholdStore : thresholdConfig := ⟨GoMap.nilMap, GoMap.nilMap⟩
  let usageWeight := args.GetInt 1 "usage.weight"
  match assertFloatMap (args.get thresholdSection) with
  | .error f => .error f
  | .ok raw =>
    match newLoop thresholdStore raw.entries with
    | .error f => .error f
    | .ok st => .ok { weight := usageWeight, threshold := st }

/-- Method `Name` of the plugin. -/
def usagePlugin.Name (_up : usagePlugin) : String := PluginName

/-- The `msg` string built in both rejection branches of `predicateFn`. -/
def notAllowMsg (task : TaskInfo) (node : NodeInfo) : String :=
  "task " ++ task.Namespace ++ "/" ++ task.Name ++
    " is not allow to dispatch to node " ++ node.Name

/-- First loop of `predicateFn`, over the CPU thresholds in enumeration order. -/
def cpuLoop (up : usagePlugin) (task : TaskInfo) (node : NodeInfo) :
    List (String × ℚ) → Option String
  | [] => none
  | (period, value) :: rest =>
    if node.ResourceUsage.CpuUsageAvg.index period > value then
      some ("plugin " ++ up.Name ++ " cpu usage predicates " ++ notAllowMsg task node)
    else cpuLoop up task node rest

/-- Second loop of `predicateFn`, over the memory thresholds. -/
def memLoop (up : usagePlugin) (task : TaskInfo) (node : NodeInfo) :
    List (String × ℚ) → Option String
  | [] => none
  | (period, value) :: rest =>
    if node.ResourceUsage.MemUsageAvg.index period > value then
      some ("plugin " ++ up.Name ++ " mem usage predicates " ++ notAllowMsg task node)
    else memLoop up task node rest

/-- `predicateFn`: `none` is the nil error (the node passes), `some e` the
error returned for a rejected node. -/
def predicateFn (up : usagePlugin) (task : TaskInfo) (node : NodeInfo) : Option String :=
  match cpuLoop up task node up.threshold.cpuUsageAvg.entries with
  | some e => some e
  | none =>
    match memLoop up task node up.threshold.memUsageAvg.entries with
    | some e => some e
    | none => none

/-! ## Binary64 arithmetic -/

/-- Round half to even, to an integer. -/
def roundHalfEven (x : ℚ) : ℤ :=
  if x - ⌊x⌋ < 1 / 2 then ⌊x⌋
  else if 1 / 2 < x - ⌊x⌋ then ⌊x⌋ + 1
  else if ⌊x⌋ % 2 = 0 then ⌊x⌋ else ⌊x⌋ + 1

/-- Exponent of the unit in the last place of binary64 at the magnitude
`q > 0`: 53 significant bits, smallest exponent `-1074`. -/
def ulpExp (q : ℚ) : ℤ := max (Int.log 2 q - 52) (-1074)

/-- Nearest multiple of the unit in the last place, ties to even, for `q > 0`. -/
def roundPos (q : ℚ) : ℚ :=
  (roundHalfEven (q * (2 : ℚ) ^ (-(ulpExp q))) : ℚ) * (2 : ℚ) ^ (ulpExp q)

/-- Round to nearest, ties to even, with no bound on the exponent above. -/
def roundQ (q : ℚ) : ℚ :=
  if q = 0 then 0 else if 0 < q then roundPos q else -roundPos (-q)

/-- Values of the Go type `float64`: NaN, the two infinities (`neg` tells the
sign) and the finite values, each given by the rational it denotes. -/
inductive Float64 where
  | nan
  | inf (neg : Bool)
  | fin (q : ℚ)
  deriving DecidableEq

namespace Float64

/-- The binary64 value of an exact result: rounded to nearest, ties to even;
a rounded magnitude of `2 ^ 1024` or more overflows to infinity. -/
def round (q : ℚ) : Float64 :=
  if (2 : ℚ) ^ 1024 ≤ roundQ q then inf false
  else if roundQ q ≤ -(2 : ℚ) ^ 1024 then inf true
  else fin (roundQ q)

/-- Conversion `float64(i)` of an integer. -/
def ofInt (i : Int) : Float64 := round (i : ℚ)

/-- Subtraction `x - y` of `float64` values. -/
def sub : Float64 → Float64 → Float64
  | nan, _ => nan
  | _, nan => nan
  | inf a, inf b => if a = b then nan else inf a
  | inf a, fin _ => inf a
  | fin _, inf b => inf (!b)
  | fin a, fin b => round (a - b)

/-- Multiplication `x * y` of `float64` values. -/
def mul : Float64 → Float64 → Float64
  | nan, _ => nan
  | _, nan => nan
  | inf a, inf b => inf (a != b)
  | inf a, fin q => if q = 0 then nan else inf (a != decide (q < 0))
  | fin q, inf b => if q = 0 then nan else inf (decide (q < 0) != b)
  | fin a, fin b => round (a * b)

/-- Comparison `x <= y` of `float64` values; false when either is NaN. -/
def le : Float64 → Float64 → Bool
  | nan, _ => false
  | _, nan => false
  | inf a, inf b => a || !b
  | inf a, fin _ => a
  | fin _, inf b => !b
  | fin a, fin b => decide (a ≤ b)

end Float64

/-- `nodeOrderFn`: the score and the error (always nil). -/
def nodeOrderFn (up : usagePlugin) (_task : TaskInfo) (node : NodeInfo) :
    Float64 × Option String :=
  match node.ResourceUsage.CpuUsageAvg.lookup cpuUsageAvg5m with
  | none => (Float64.fin 0, none)
  | some cpuUsage =>
    (Float64.mul (Float64.ofInt up.weight)
      (Float64.sub (Float64.fin 1) (Float64.fin cpuUsage)), none)

/-- The error built by `fmt.Errorf` in the CPU branch of `predicateFn`. -/
def cpuReason (up : usagePlugin) (task : TaskInfo) (node : NodeInfo) : String :=
  "plugin " ++ up.Name ++ " cpu usage predicates " ++ notAllowMsg task node

/-- The error built by `fmt.Errorf` in the memory branch of `predicateFn`. -/
def memReason (up : usagePlugin) (task : TaskInfo) (node : NodeInfo) : String :=
  "plugin " ++ up.Name ++ " mem usage predicates " ++ notAllowMsg task node

/-! ## Auxiliary facts -/

theorem index_of_lookup_some {m : GoMap} {k : String} {u : ℚ}
    (h : m.lookup k = some u) : m.index k = u := by
  simp [GoMap.index, h]

theorem index_of_lookup_none {m : GoMap} {k : String}
    (h : m.lookup k = none) : m.index k = 0 := by
  simp [GoMap.index, h]

/-- With a non-negative ceiling, the one-result index exceeds the ceiling
exactly when an entry is present and exceeds it. -/
theorem index_gt_iff {m : GoMap} {k : String} {v : ℚ} (hv : 0 ≤ v) :
    m.index k > v ↔ ∃ u, m.lookup k = some u ∧ u > v := by
  cases h : m.lookup k with
  | none =>
    rw [index_of_lookup_none h]
    constructor
    · intro h0; exact absurd h0 (not_lt.mpr hv)
    · rintro ⟨u, hu, _⟩; cases hu
  | some u =>
    rw [index_of_lookup_some h]
    constructor
    · intro h0; exact ⟨u, rfl, h0⟩
    · rintro ⟨u', hu', h0⟩
      cases hu'; exact h0

theorem cpuLoop_eq_none_iff (up : usagePlugin) (task : TaskInfo) (node : NodeInfo)
    (l : List (String × ℚ)) :
    cpuLoop up task node l = none ↔
      ∀ e ∈ l, ¬ node.ResourceUsage.CpuUsageAvg.index e.1 > e.2 := by
  induction l with
  | nil => simp [cpuLoop]
  | cons e rest ih =>
    obtain ⟨period, value⟩ := e
    by_cases h : node.ResourceUsage.CpuUsageAvg.index period > value
    · simp [cpuLoop, h]
    · simp only [cpuLoop, if_neg h, ih, List.mem_cons, forall_eq_or_imp]
      exact ⟨fun hr => ⟨h, hr⟩, fun hr => hr.2⟩

theorem memLoop_eq_none_iff (up : usagePlugin) (task : TaskInfo) (node : NodeInfo)
    (l : List (String × ℚ)) :
    memLoop up task node l = none ↔
      ∀ e ∈ l, ¬ node.ResourceUsage.MemUsageAvg.index e.1 > e.2 := by
  induction l with
  | nil => simp [memLoop]
  | cons e rest ih =>
    obtain ⟨period, value⟩ := e
    by_cases h : node.ResourceUsage.MemUsageAvg.index period > value
    · simp [memLoop, h]
    · simp only [memLoop, if_neg h, ih, List.mem_cons, forall_eq_or_imp]
      exact ⟨fun hr => ⟨h, hr⟩, fun hr => hr.2⟩

/-- Whatever entry is found first, the CPU loop reports one and the same error. -/
theorem cpuLoop_eq_some (up : usagePlugin) (task : TaskInfo) (node : NodeInfo)
    (l : List (String × ℚ)) (e : String) (h : cpuLoop up task node l = some e) :
    e = "plugin " ++ up.Name ++ " cpu usage predicates " ++ notAllowMsg task node := by
  induction l with
  | nil => simp [cpuLoop] at h
  | cons x rest ih =>
    obtain ⟨period, value⟩ := x
    by_cases hx : node.ResourceUsage.CpuUsageAvg.index period > value
    · simp only [cpuLoop, if_pos hx, Option.some.injEq] at h
      exact h.symm
    · simp only [cpuLoop, if_neg hx] at h
      exact ih h

theorem memLoop_eq_some (up : usagePlugin) (task : TaskInfo) (node : NodeInfo)
    (l : List (String × ℚ)) (e : String) (h : memLoop up task node l = some e) :
    e = "plugin " ++ up.Name ++ " mem usage predicates " ++ notAllowMsg task node := by
  induction l with
  | nil => simp [memLoop] at h
  | cons x rest ih =>
    obtain ⟨period, value⟩ := x
    by_cases hx : node.ResourceUsage.MemUsageAvg.index period > value
    · simp only [memLoop, if_pos hx, Option.some.injEq] at h
      exact h.symm
    · simp only [memLoop, if_neg hx] at h
      exact ih h

/-- The predicate passes exactly when no configured entry is exceeded by the
one-result index of the node's usage maps. -/
theorem predicateFn_eq_none_iff (up : usagePlugin) (task : TaskInfo) (node : NodeInfo) :
    predicateFn up task node = none ↔
      (∀ e ∈ up.threshold.cpuUsageAvg.entries,
          ¬ node.ResourceUsage.CpuUsageAvg.index e.1 > e.2) ∧
      (∀ e ∈ up.threshold.memUsageAvg.entries,
          ¬ node.ResourceUsage.MemUsageAvg.index e.1 > e.2) := by
  rw [← cpuLoop_eq_none_iff up task node, ← memLoop_eq_none_iff up task node]
  unfold predicateFn
  cases cpuLoop up task node up.threshold.cpuUsageAvg.entries <;>
    cases memLoop up task node up.threshold.memUsageAvg.entries <;> simp

theorem entries_alloc (kvs : List (String × ℚ)) : (GoMap.alloc kvs).entries = kvs := rfl

theorem entries_nilMap : GoMap.nilMap.entries = [] := rfl

theorem entries_delete (m : GoMap) (k : String) :
    (m.delete k).entries = m.entries.filter (fun e => !(e.1 == k)) := by
  cases m <;> simp [GoMap.delete, GoMap.entries]

/-- An entry whose key reads as absent and whose ceiling is non-negative never
trips the comparison of the loops. -/
theorem not_index_gt_of_absent {m : GoMap} {k : String} {v : ℚ}
    (habs : m.lookup k = none) (hv : 0 ≤ v) : ¬ m.index k > v := by
  rw [index_of_lookup_none habs]
  exact not_lt.mpr hv

/-! ## Admission predicate -/

/-- C1: for a policy whose ceilings are all non-negative, `predicateFn`
rejects exactly when some CPU ceiling `(window, ceiling)` has a CPU entry in
the node's snapshot strictly above the ceiling, or some memory ceiling has a
memory entry strictly above it; otherwise it returns nil.  The outcome is the
same for every policy `up'` holding the same ceilings in another enumeration
order. -/
theorem predicateFn_rejects_iff (up up' : usagePlugin) (task : TaskInfo) (node : NodeInfo)
    (hcpu : ∀ e ∈ up.threshold.cpuUsageAvg.entries, 0 ≤ e.2)
    (hmem : ∀ e ∈ up.threshold.memUsageAvg.entries, 0 ≤ e.2)
    (hpc : up'.threshold.cpuUsageAvg.entries.Perm up.threshold.cpuUsageAvg.entries)
    (hpm : up'.threshold.memUsageAvg.entries.Perm up.threshold.memUsageAvg.entries) :
    ((predicateFn up' task node).isSome = true ↔
      (∃ e ∈ up.threshold.cpuUsageAvg.entries,
          ∃ u, node.ResourceUsage.CpuUsageAvg.lookup e.1 = some u ∧ u > e.2) ∨
      (∃ e ∈ up.threshold.memUsageAvg.entries,
          ∃ u, node.ResourceUsage.MemUsageAvg.lookup e.1 = some u ∧ u > e.2)) ∧
    ((predicateFn up' task node = none) ↔
      ¬ ((∃ e ∈ up.threshold.cpuUsageAvg.entries,
          ∃ u, node.ResourceUsage.CpuUsageAvg.lookup e.1 = some u ∧ u > e.2) ∨
      (∃ e ∈ up.threshold.memUsageAvg.entries,
          ∃ u, node.ResourceUsage.MemUsageAvg.lookup e.1 = some u ∧ u > e.2))) := by
  have key : predicateFn up' task node = none ↔
      ¬ ((∃ e ∈ up.threshold.cpuUsageAvg.entries,
          ∃ u, node.ResourceUsage.CpuUsageAvg.lookup e.1 = some u ∧ u > e.2) ∨
      (∃ e ∈ up.threshold.memUsageAvg.entries,
          ∃ u, node.ResourceUsage.MemUsageAvg.lookup e.1 = some u ∧ u > e.2)) := by
    rw [predicateFn_eq_none_iff, not_or]
    constructor
    · rintro ⟨h1, h2⟩
      refine ⟨?_, ?_⟩
      · rintro ⟨e, he, hu⟩
        exact h1 e (hpc.mem_iff.mpr he) ((index_gt_iff (hcpu e he)).mpr hu)
      · rintro ⟨e, he, hu⟩
        exact h2 e (hpm.mem_iff.mpr he) ((index_gt_iff (hmem e he)).mpr hu)
    · rintro ⟨h1, h2⟩
      refine ⟨?_, ?_⟩
      · intro e he hgt
        have he' := hpc.mem_iff.mp he
        exact h1 ⟨e, he', (index_gt_iff (hcpu e he')).mp hgt⟩
      · intro e he hgt
        have he' := hpm.mem_iff.mp he
        exact h2 ⟨e, he', (index_gt_iff (hmem e he')).mp hgt⟩
  refine ⟨?_, key⟩
  rw [← not_iff_not, ← key]
  cases predicateFn up' task node <;> simp

/-- Witness of C1. -/
theorem predicateFn_rejects_iff_witness :
    (predicateFn ⟨1, ⟨GoMap.alloc [("10m", 1/2), ("5m", 4/5)], GoMap.alloc [("5m", 9/10)]⟩⟩
        ⟨"default", "job-0"⟩
        ⟨"node-1", ⟨GoMap.alloc [("5m", 17/20)], GoMap.alloc [("5m", 1/10)]⟩⟩).isSome = true := by
  refine ((predicateFn_rejects_iff
    ⟨1, ⟨GoMap.alloc [("5m", 4/5), ("10m", 1/2)], GoMap.alloc [("5m", 9/10)]⟩⟩
    ⟨1, ⟨GoMap.alloc [("10m", 1/2), ("5m", 4/5)], GoMap.alloc [("5m", 9/10)]⟩⟩
    ⟨"default", "job-0"⟩
    ⟨"node-1", ⟨GoMap.alloc [("5m", 17/20)], GoMap.alloc [("5m", 1/10)]⟩⟩
    ?_ ?_ ?_ ?_).1).mpr ?_
  · intro e he
    simp only [GoMap.entries, List.mem_cons, List.mem_singleton, List.not_mem_nil, or_false] at he
    rcases he with rfl | rfl <;> norm_num
  · intro e he
    simp only [GoMap.entries, List.mem_singleton] at he
    subst he; norm_num
  · exact List.Perm.swap _ _ _
  · exact List.Perm.refl _
  · refine Or.inl ⟨("5m", 4/5), ?_, 17/20, ?_, ?_⟩
    · simp [GoMap.entries]
    · rfl
    · norm_num

/-- C3: with the single CPU ceiling `w ↦ c` and no memory ceiling,
`predicateFn` passes a node whose CPU usage for `w` equals `c` and rejects a
node whose CPU usage for `w` is strictly greater than `c`; likewise for a
single memory ceiling and no CPU ceiling. -/
theorem predicateFn_boundary_strict (weight : Int) (w : String) (c u : ℚ) (m0 : GoMap)
    (task : TaskInfo) (node : NodeInfo) (h0 : m0.entries = []) :
    (node.ResourceUsage.CpuUsageAvg.lookup w = some u →
      (u = c → predicateFn ⟨weight, ⟨GoMap.alloc [(w, c)], m0⟩⟩ task node = none) ∧
      (c < u → (predicateFn ⟨weight, ⟨GoMap.alloc [(w, c)], m0⟩⟩ task node).isSome = true)) ∧
    (node.ResourceUsage.MemUsageAvg.lookup w = some u →
      (u = c → predicateFn ⟨weight, ⟨m0, GoMap.alloc [(w, c)]⟩⟩ task node = none) ∧
      (c < u → (predicateFn ⟨weight, ⟨m0, GoMap.alloc [(w, c)]⟩⟩ task node).isSome = true)) := by
  refine ⟨fun hl => ⟨fun he => ?_, fun hlt => ?_⟩, fun hl => ⟨fun he => ?_, fun hlt => ?_⟩⟩
  · rw [predicateFn_eq_none_iff]
    simp [entries_alloc, h0, index_of_lookup_some hl, he]
  · rw [Option.isSome_iff_ne_none, Ne, predicateFn_eq_none_iff]
    simp [entries_alloc, h0, index_of_lookup_some hl, hlt]
  · rw [predicateFn_eq_none_iff]
    simp [entries_alloc, h0, index_of_lookup_some hl, he]
  · rw [Option.isSome_iff_ne_none, Ne, predicateFn_eq_none_iff]
    simp [entries_alloc, h0, index_of_lookup_some hl, hlt]

/-- Witness of C3: ceiling `0.80`; usage `0.80` passes, usage `0.8000001` is
rejected. -/
theorem predicateFn_boundary_strict_witness :
    predicateFn ⟨1, ⟨GoMap.alloc [("5m", 0.80)], GoMap.nilMap⟩⟩ ⟨"default", "job-0"⟩
        ⟨"node-1", ⟨GoMap.alloc [("5m", 0.80)], GoMap.nilMap⟩⟩ = none ∧
    (predicateFn ⟨1, ⟨GoMap.alloc [("5m", 0.80)], GoMap.nilMap⟩⟩ ⟨"default", "job-0"⟩
        ⟨"node-1", ⟨GoMap.alloc [("5m", 0.8000001)], GoMap.nilMap⟩⟩).isSome = true :=
  ⟨((predicateFn_boundary_strict 1 "5m" 0.80 0.80 GoMap.nilMap ⟨"default", "job-0"⟩
      ⟨"node-1", ⟨GoMap.alloc [("5m", 0.80)], GoMap.nilMap⟩⟩ rfl).1 rfl).1 rfl,
   ((predicateFn_boundary_strict 1 "5m" 0.80 0.8000001 GoMap.nilMap ⟨"default", "job-0"⟩
      ⟨"node-1", ⟨GoMap.alloc [("5m", 0.8000001)], GoMap.nilMap⟩⟩ rfl).1 rfl).2 (by norm_num)⟩

/-- Counterexample to C4: the policy holds the ceiling `-1` for `"10m"`, the
snapshot has no `"10m"` entry, and `predicateFn` rejects although it passes
once that ceiling is deleted. -/
theorem predicateFn_missing_window_negative_ceiling :
    (⟨"node-1", ⟨GoMap.alloc [("5m", 1/2)], GoMap.nilMap⟩⟩ : NodeInfo).ResourceUsage.CpuUsageAvg.lookup
        "10m" = none ∧
    (predicateFn ⟨1, ⟨GoMap.alloc [("10m", -1)], GoMap.nilMap⟩⟩ ⟨"default", "job-0"⟩
        ⟨"node-1", ⟨GoMap.alloc [("5m", 1/2)], GoMap.nilMap⟩⟩).isSome = true ∧
    predicateFn ⟨1, ⟨(GoMap.alloc [("10m", -1)]).delete "10m", GoMap.nilMap⟩⟩ ⟨"default", "job-0"⟩
        ⟨"node-1", ⟨GoMap.alloc [("5m", 1/2)], GoMap.nilMap⟩⟩ = none := by
  refine ⟨rfl, ?_, ?_⟩
  · rw [Option.isSome_iff_ne_none, Ne, predicateFn_eq_none_iff]
    intro h
    refine h.1 ("10m", -1) (by simp [entries_alloc]) ?_
    have h0 : (GoMap.alloc [("5m", 1/2)]).index "10m" = 0 := index_of_lookup_none rfl
    show (GoMap.alloc [("5m", 1/2)]).index "10m" > -1
    rw [h0]
    norm_num
  · rw [predicateFn_eq_none_iff]
    simp [GoMap.entries, GoMap.delete]

/-- C4 (amended): a configured window `w` for which the snapshot has no entry
and whose ceiling is non-negative is skipped: `predicateFn` returns the same
result as with the ceiling for `w` deleted, for CPU and for memory ceilings
alike.  In particular a policy whose only ceiling is a non-negative one for a
window absent from the snapshot passes every node. -/
theorem predicateFn_missing_window_skipped (up : usagePlugin) (task : TaskInfo)
    (node : NodeInfo) (w : String) :
    (node.ResourceUsage.CpuUsageAvg.lookup w = none →
      (∀ c, (w, c) ∈ up.threshold.cpuUsageAvg.entries → 0 ≤ c) →
      ((predicateFn up task node).isSome =
        (predicateFn { up with threshold :=
          { up.threshold with cpuUsageAvg := up.threshold.cpuUsageAvg.delete w } }
          task node).isSome) ∧
      (up.threshold.memUsageAvg.entries = [] →
        (∀ e ∈ up.threshold.cpuUsageAvg.entries, e.1 = w) →
        predicateFn up task node = none)) ∧
    (node.ResourceUsage.MemUsageAvg.lookup w = none →
      (∀ c, (w, c) ∈ up.threshold.memUsageAvg.entries → 0 ≤ c) →
      ((predicateFn up task node).isSome =
        (predicateFn { up with threshold :=
          { up.threshold with memUsageAvg := up.threshold.memUsageAvg.delete w } }
          task node).isSome) ∧
      (up.threshold.cpuUsageAvg.entries = [] →
        (∀ e ∈ up.threshold.memUsageAvg.entries, e.1 = w) →
        predicateFn up task node = none)) := by
  have hiff : ∀ a b : Option String, (a = none ↔ b = none) → a.isSome = b.isSome := by
    intro a b h
    cases a <;> cases b <;> simp at h ⊢
  refine ⟨fun habs hnn => ⟨hiff _ _ ?_, fun hm hall => ?_⟩,
    fun habs hnn => ⟨hiff _ _ ?_, fun hm hall => ?_⟩⟩
  · rw [predicateFn_eq_none_iff, predicateFn_eq_none_iff]
    simp only [entries_delete]
    refine and_congr_left (fun _ => ⟨fun h e he => h e (List.mem_filter.mp he).1, fun h e he => ?_⟩)
    by_cases hk : e.1 = w
    · obtain ⟨k, c⟩ := e
      simp only at hk
      subst hk
      exact not_index_gt_of_absent habs (hnn c he)
    · exact h e (List.mem_filter.mpr ⟨he, by simpa using hk⟩)
  · rw [predicateFn_eq_none_iff, hm]
    refine ⟨fun e he => ?_, by simp⟩
    obtain ⟨k, c⟩ := e
    have hk : k = w := hall _ he
    subst hk
    exact not_index_gt_of_absent habs (hnn c he)
  · rw [predicateFn_eq_none_iff, predicateFn_eq_none_iff]
    simp only [entries_delete]
    refine and_congr_right (fun _ => ⟨fun h e he => h e (List.mem_filter.mp he).1, fun h e he => ?_⟩)
    by_cases hk : e.1 = w
    · obtain ⟨k, c⟩ := e
      simp only at hk
      subst hk
      exact not_index_gt_of_absent habs (hnn c he)
    · exact h e (List.mem_filter.mpr ⟨he, by simpa using hk⟩)
  · rw [predicateFn_eq_none_iff, hm]
    refine ⟨by simp, fun e he => ?_⟩
    obtain ⟨k, c⟩ := e
    have hk : k = w := hall _ he
    subst hk
    exact not_index_gt_of_absent habs (hnn c he)

/-- Witness of C4: `cpuUsageAvg["10m"] = 0.5`, snapshot without `"10m"`. -/
theorem predicateFn_missing_window_skipped_witness :
    predicateFn ⟨1, ⟨GoMap.alloc [("10m", 0.5)], GoMap.nilMap⟩⟩ ⟨"default", "job-0"⟩
        ⟨"node-1", ⟨GoMap.alloc [("5m", 0.99)], GoMap.nilMap⟩⟩ = none :=
  ((predicateFn_missing_window_skipped ⟨1, ⟨GoMap.alloc [("10m", 0.5)], GoMap.nilMap⟩⟩
      ⟨"default", "job-0"⟩ ⟨"node-1", ⟨GoMap.alloc [("5m", 0.99)], GoMap.nilMap⟩⟩ "10m").1 rfl
      (by
        intro c hc
        simp only [GoMap.entries, List.mem_singleton, Prod.mk.injEq, true_and] at hc
        subst hc; norm_num)).2 rfl
      (by
        intro e he
        simp only [GoMap.entries, List.mem_singleton] at he
        subst he; rfl)

/-! ## Binary64 rounding -/

theorem roundHalfEven_intCast (n : ℤ) : roundHalfEven (n : ℚ) = n := by
  simp [roundHalfEven]

theorem floor_le_roundHalfEven (x : ℚ) : ⌊x⌋ ≤ roundHalfEven x := by
  unfold roundHalfEven
  split_ifs <;> omega

theorem roundHalfEven_le_floor_add_one (x : ℚ) : roundHalfEven x ≤ ⌊x⌋ + 1 := by
  unfold roundHalfEven
  split_ifs <;> omega

theorem roundHalfEven_mono {x y : ℚ} (h : x ≤ y) : roundHalfEven x ≤ roundHalfEven y := by
  have hf : ⌊x⌋ ≤ ⌊y⌋ := Int.floor_mono h
  rcases lt_or_eq_of_le hf with hlt | heq
  · calc roundHalfEven x ≤ ⌊x⌋ + 1 := roundHalfEven_le_floor_add_one x
      _ ≤ ⌊y⌋ := hlt
      _ ≤ roundHalfEven y := floor_le_roundHalfEven y
  · have hxy : x - ⌊x⌋ ≤ y - ⌊y⌋ := by rw [heq]; linarith
    unfold roundHalfEven
    rw [heq]
    split_ifs <;> first | omega | (exfalso; linarith)

theorem roundHalfEven_eq_of_lt {x : ℚ} {m : ℤ} (h1 : (m : ℚ) - 1 / 2 < x)
    (h2 : x < (m : ℚ) + 1 / 2) : roundHalfEven x = m := by
  have hfl : ⌊x⌋ = m ∨ ⌊x⌋ = m - 1 := by
    have ha : m - 1 ≤ ⌊x⌋ := by
      rw [Int.le_floor]; push_cast; linarith
    have hb : ⌊x⌋ < m + 1 := by
      rw [Int.floor_lt]; push_cast; linarith
    omega
  unfold roundHalfEven
  rcases hfl with hf | hf
  · rw [hf]
    have : x - (m : ℚ) < 1 / 2 := by linarith
    rw [if_pos this]
  · rw [hf]
    have hn : ¬ (x - ((m - 1 : ℤ) : ℚ) < 1 / 2) := by push_cast; linarith
    have hp : 1 / 2 < x - ((m - 1 : ℤ) : ℚ) := by push_cast; linarith
    rw [if_neg hn, if_pos hp]
    omega

theorem roundHalfEven_tie {x : ℚ} {m : ℤ} (h : x = (m : ℚ) + 1 / 2) :
    roundHalfEven x = if m % 2 = 0 then m else m + 1 := by
  have hf : ⌊x⌋ = m := by
    rw [Int.floor_eq_iff]; constructor <;> linarith
  unfold roundHalfEven
  rw [hf]
  have hn : ¬ (x - (m : ℚ) < 1 / 2) := by linarith
  have hp : ¬ (1 / 2 < x - (m : ℚ)) := by linarith
  rw [if_neg hn, if_neg hp]

theorem two_zpow_pos (e : ℤ) : (0 : ℚ) < (2 : ℚ) ^ e := zpow_pos (by norm_num) e

theorem two_zpow_le {m n : ℤ} (h : m ≤ n) : (2 : ℚ) ^ m ≤ (2 : ℚ) ^ n :=
  zpow_le_zpow_right₀ (by norm_num) h

theorem two_zpow_log_le {q : ℚ} (hq : 0 < q) : (2 : ℚ) ^ (Int.log 2 q) ≤ q := by
  have := Int.zpow_log_le_self (R := ℚ) (b := 2) (by norm_num) hq
  simpa using this

theorem lt_two_zpow_log_succ (q : ℚ) : q < (2 : ℚ) ^ (Int.log 2 q + 1) := by
  have := Int.lt_zpow_succ_log_self (R := ℚ) (b := 2) (by norm_num) q
  simpa using this

theorem log_le_of_lt_two_zpow {q : ℚ} (hq : 0 < q) {k : ℤ} (h : q < (2 : ℚ) ^ k) :
    Int.log 2 q < k := by
  have := (Int.lt_zpow_iff_log_lt (R := ℚ) (b := 2) (by norm_num) (x := k) hq).mp
    (by simpa using h)
  exact this

theorem le_log_of_two_zpow_le {q : ℚ} (hq : 0 < q) {k : ℤ} (h : (2 : ℚ) ^ k ≤ q) :
    k ≤ Int.log 2 q := by
  have := (Int.zpow_le_iff_le_log (R := ℚ) (b := 2) (by norm_num) (x := k) hq).mp
    (by simpa using h)
  exact this

theorem log_eq_of_bounds {q : ℚ} {k : ℤ} (h1 : (2 : ℚ) ^ k ≤ q) (h2 : q < (2 : ℚ) ^ (k + 1)) :
    Int.log 2 q = k := by
  have hq : 0 < q := lt_of_lt_of_le (two_zpow_pos k) h1
  have a := le_log_of_two_zpow_le hq h1
  have b := log_le_of_lt_two_zpow hq h2
  omega

theorem ulpExp_ge (q : ℚ) : -1074 ≤ ulpExp q := le_max_right _ _

theorem log_sub_le_ulpExp (q : ℚ) : Int.log 2 q - 52 ≤ ulpExp q := le_max_left _ _

theorem ulpExp_mono {a b : ℚ} (ha : 0 < a) (h : a ≤ b) : ulpExp a ≤ ulpExp b := by
  have := Int.log_mono_right (R := ℚ) (b := 2) ha h
  unfold ulpExp
  exact max_le_max (by omega) le_rfl

/-- Scaling by the unit in the last place and back. -/
theorem scale_cancel (q : ℚ) (e : ℤ) : q * (2 : ℚ) ^ (-e) * (2 : ℚ) ^ e = q := by
  rw [mul_assoc, ← zpow_add₀ (by norm_num : (2 : ℚ) ≠ 0)]
  simp

/-- The significand of a positive number is below `2 ^ 53`. -/
theorem scaled_lt (q : ℚ) (_hq : 0 < q) : q * (2 : ℚ) ^ (-(ulpExp q)) < (2 : ℚ) ^ (53 : ℤ) := by
  have h1 := lt_two_zpow_log_succ q
  have h2 : (2 : ℚ) ^ (Int.log 2 q + 1) ≤ (2 : ℚ) ^ (53 + ulpExp q) :=
    two_zpow_le (by have := log_sub_le_ulpExp q; omega)
  have h3 : q < (2 : ℚ) ^ (53 + ulpExp q) := lt_of_lt_of_le h1 h2
  have h4 : q * (2 : ℚ) ^ (-(ulpExp q)) < (2 : ℚ) ^ (53 + ulpExp q) * (2 : ℚ) ^ (-(ulpExp q)) :=
    mul_lt_mul_of_pos_right h3 (two_zpow_pos _)
  rw [← zpow_add₀ (by norm_num : (2 : ℚ) ≠ 0)] at h4
  simpa using h4

theorem roundHalfEven_scaled_le (q : ℚ) (hq : 0 < q) :
    roundHalfEven (q * (2 : ℚ) ^ (-(ulpExp q))) ≤ 2 ^ 53 := by
  have h := roundHalfEven_mono (le_of_lt (scaled_lt q hq))
  have h2 : ((2 : ℚ) ^ (53 : ℤ)) = (((2 ^ 53 : ℤ)) : ℚ) := by norm_num
  rw [h2, roundHalfEven_intCast] at h
  exact h

theorem roundHalfEven_nonneg {x : ℚ} (hx : 0 ≤ x) : 0 ≤ roundHalfEven x := by
  have h := roundHalfEven_mono hx
  have h2 : (0 : ℚ) = ((0 : ℤ) : ℚ) := by norm_num
  rw [h2, roundHalfEven_intCast] at h
  exact h

theorem roundPos_nonneg (q : ℚ) (hq : 0 < q) : 0 ≤ roundPos q := by
  unfold roundPos
  refine mul_nonneg ?_ (le_of_lt (two_zpow_pos _))
  exact_mod_cast roundHalfEven_nonneg (mul_nonneg hq.le (le_of_lt (two_zpow_pos _)))

/-- A rounded positive number is at most `2 ^ (53 + ulpExp q)`. -/
theorem roundPos_le_top (q : ℚ) (hq : 0 < q) : roundPos q ≤ (2 : ℚ) ^ (53 + ulpExp q) := by
  unfold roundPos
  rw [zpow_add₀ (by norm_num : (2 : ℚ) ≠ 0)]
  refine mul_le_mul_of_nonneg_right ?_ (le_of_lt (two_zpow_pos _))
  have := roundHalfEven_scaled_le q hq
  have h2 : ((2 : ℚ) ^ (53 : ℤ)) = (((2 ^ 53 : ℤ)) : ℚ) := by norm_num
  rw [h2]
  exact_mod_cast this

/-- A rounded normal number is at least the power of two below it. -/
theorem le_roundPos_of_normal (q : ℚ) (hq : 0 < q) (hn : ulpExp q = Int.log 2 q - 52) :
    (2 : ℚ) ^ (Int.log 2 q) ≤ roundPos q := by
  have h1 := two_zpow_log_le hq
  have h3 : (2 : ℚ) ^ (52 : ℤ) ≤ q * (2 : ℚ) ^ (-(ulpExp q)) := by
    have h4 : (2 : ℚ) ^ (Int.log 2 q) * (2 : ℚ) ^ (-(ulpExp q)) ≤ q * (2 : ℚ) ^ (-(ulpExp q)) :=
      mul_le_mul_of_nonneg_right h1 (le_of_lt (two_zpow_pos _))
    rw [← zpow_add₀ (by norm_num : (2 : ℚ) ≠ 0)] at h4
    have h5 : Int.log 2 q + -(ulpExp q) = 52 := by omega
    rw [h5] at h4
    exact h4
  have h6 := roundHalfEven_mono h3
  have h2 : ((2 : ℚ) ^ (52 : ℤ)) = (((2 ^ 52 : ℤ)) : ℚ) := by norm_num
  rw [h2, roundHalfEven_intCast] at h6
  unfold roundPos
  have h7 : (2 : ℚ) ^ (Int.log 2 q) = (2 : ℚ) ^ (52 : ℤ) * (2 : ℚ) ^ (ulpExp q) := by
    rw [← zpow_add₀ (by norm_num : (2 : ℚ) ≠ 0)]
    congr 1
    omega
  rw [h7, h2]
  refine mul_le_mul_of_nonneg_right ?_ (le_of_lt (two_zpow_pos _))
  exact_mod_cast h6

theorem roundPos_mono {a b : ℚ} (ha : 0 < a) (h : a ≤ b) : roundPos a ≤ roundPos b := by
  have hb : 0 < b := lt_of_lt_of_le ha h
  have he := ulpExp_mono ha h
  rcases lt_or_eq_of_le he with hlt | heq
  · have hbn : ulpExp b = Int.log 2 b - 52 := by
      have h1 := ulpExp_ge a
      unfold ulpExp at hlt ⊢
      rcases max_choice (Int.log 2 b - 52) (-1074) with hc | hc
      · exact hc
      · rw [hc] at hlt
        have := le_max_right (Int.log 2 a - 52) (-1074)
        omega
    calc roundPos a ≤ (2 : ℚ) ^ (53 + ulpExp a) := roundPos_le_top a ha
      _ ≤ (2 : ℚ) ^ (Int.log 2 b) := two_zpow_le (by omega)
      _ ≤ roundPos b := le_roundPos_of_normal b hb hbn
  · unfold roundPos
    rw [heq]
    refine mul_le_mul_of_nonneg_right ?_ (le_of_lt (two_zpow_pos _))
    have : a * (2 : ℚ) ^ (-(ulpExp b)) ≤ b * (2 : ℚ) ^ (-(ulpExp b)) :=
      mul_le_mul_of_nonneg_right h (le_of_lt (two_zpow_pos _))
    exact_mod_cast roundHalfEven_mono this

theorem roundQ_zero : roundQ 0 = 0 := by simp [roundQ]

theorem roundQ_of_pos {q : ℚ} (hq : 0 < q) : roundQ q = roundPos q := by
  simp [roundQ, hq.ne', hq]

theorem roundQ_of_neg {q : ℚ} (hq : q < 0) : roundQ q = -roundPos (-q) := by
  simp [roundQ, hq.ne, not_lt.mpr hq.le]

theorem roundQ_neg (q : ℚ) : roundQ (-q) = -roundQ q := by
  rcases lt_trichotomy q 0 with h | h | h
  · rw [roundQ_of_neg h, roundQ_of_pos (neg_pos.mpr h)]; simp
  · subst h; simp [roundQ_zero]
  · rw [roundQ_of_pos h, roundQ_of_neg (neg_neg_of_pos h)]; simp

theorem roundQ_nonneg {q : ℚ} (hq : 0 ≤ q) : 0 ≤ roundQ q := by
  rcases lt_or_eq_of_le hq with h | h
  · rw [roundQ_of_pos h]; exact roundPos_nonneg q h
  · rw [← h, roundQ_zero]

theorem roundQ_nonpos {q : ℚ} (hq : q ≤ 0) : roundQ q ≤ 0 := by
  have := roundQ_nonneg (neg_nonneg.mpr hq)
  rw [roundQ_neg] at this
  linarith

/-- Rounding is monotone. -/
theorem roundQ_mono {a b : ℚ} (h : a ≤ b) : roundQ a ≤ roundQ b := by
  rcases lt_trichotomy a 0 with ha | ha | ha
  · rcases lt_or_le b 0 with hb | hb
    · rw [roundQ_of_neg ha, roundQ_of_neg hb]
      have := roundPos_mono (neg_pos.mpr hb) (neg_le_neg h)
      linarith
    · exact le_trans (roundQ_nonpos ha.le) (roundQ_nonneg hb)
  · subst ha
    rw [roundQ_zero]
    exact roundQ_nonneg h
  · rw [roundQ_of_pos ha, roundQ_of_pos (lt_of_lt_of_le ha h)]
    exact roundPos_mono ha h

/-- A positive number whose significand is an integer is its own rounding. -/
theorem roundPos_eq_self {x : ℚ} (n : ℤ) (h : x * (2 : ℚ) ^ (-(ulpExp x)) = (n : ℚ)) :
    roundPos x = x := by
  unfold roundPos
  rw [h, roundHalfEven_intCast, ← h]
  exact scale_cancel x _

/-- Binary64 values `m * 2 ^ e` with a significand below `2 ^ 53` and an
exponent from `-1074` on are fixed by rounding. -/
theorem roundQ_dyadic (m e : ℤ) (hm : |m| < 2 ^ 53) (he : -1074 ≤ e) :
    roundQ ((m : ℚ) * (2 : ℚ) ^ e) = (m : ℚ) * (2 : ℚ) ^ e := by
  have pos : ∀ m : ℤ, 0 < m → m < 2 ^ 53 →
      roundQ ((m : ℚ) * (2 : ℚ) ^ e) = (m : ℚ) * (2 : ℚ) ^ e := by
    intro m h0 h1
    have hx : (0 : ℚ) < (m : ℚ) * (2 : ℚ) ^ e :=
      mul_pos (by exact_mod_cast h0) (two_zpow_pos e)
    rw [roundQ_of_pos hx]
    have hlt : (m : ℚ) * (2 : ℚ) ^ e < (2 : ℚ) ^ (53 + e) := by
      rw [zpow_add₀ (by norm_num : (2 : ℚ) ≠ 0)]
      refine mul_lt_mul_of_pos_right ?_ (two_zpow_pos e)
      have h2 : ((2 : ℚ) ^ (53 : ℤ)) = (((2 ^ 53 : ℤ)) : ℚ) := by norm_num
      rw [h2]
      exact_mod_cast h1
    have hlog := log_le_of_lt_two_zpow hx hlt
    have hu : ulpExp ((m : ℚ) * (2 : ℚ) ^ e) ≤ e := by
      unfold ulpExp
      exact max_le (by omega) he
    obtain ⟨d, hd⟩ : ∃ d : ℕ, e - ulpExp ((m : ℚ) * (2 : ℚ) ^ e) = (d : ℤ) :=
      ⟨(e - ulpExp ((m : ℚ) * (2 : ℚ) ^ e)).toNat, by omega⟩
    refine roundPos_eq_self (m * 2 ^ d) ?_
    rw [mul_assoc, ← zpow_add₀ (by norm_num : (2 : ℚ) ≠ 0)]
    have : e + -ulpExp ((m : ℚ) * (2 : ℚ) ^ e) = (d : ℤ) := by omega
    rw [this]
    push_cast
    rw [zpow_natCast]
  rcases lt_trichotomy m 0 with h | h | h
  · have h1 : -m < 2 ^ 53 := by
      have := abs_lt.mp hm
      omega
    have := pos (-m) (by omega) h1
    have e1 : (((-m : ℤ)) : ℚ) * (2 : ℚ) ^ e = -((m : ℚ) * (2 : ℚ) ^ e) := by
      push_cast; ring
    rw [e1, roundQ_neg] at this
    linarith
  · subst h
    simp [roundQ_zero]
  · exact pos m h (abs_lt.mp hm).2

/-- Rounding a rounded number changes nothing. -/
theorem roundQ_idem (q : ℚ) : roundQ (roundQ q) = roundQ q := by
  have pos : ∀ q : ℚ, 0 < q → roundQ (roundPos q) = roundPos q := by
    intro q hq
    have hle := roundHalfEven_scaled_le q hq
    have h0 : 0 ≤ roundHalfEven (q * (2 : ℚ) ^ (-(ulpExp q))) :=
      roundHalfEven_nonneg (mul_nonneg hq.le (le_of_lt (two_zpow_pos _)))
    rcases lt_or_eq_of_le hle with hlt | heq
    · unfold roundPos
      exact roundQ_dyadic _ _ (abs_lt.mpr ⟨by omega, hlt⟩) (ulpExp_ge q)
    · have hv : roundPos q = (((2 ^ 52 : ℤ)) : ℚ) * (2 : ℚ) ^ (ulpExp q + 1) := by
        unfold roundPos
        rw [heq, zpow_add₀ (by norm_num : (2 : ℚ) ≠ 0)]
        push_cast
        ring
      rw [hv]
      exact roundQ_dyadic _ _ (by norm_num) (by have := ulpExp_ge q; omega)
  rcases lt_trichotomy q 0 with h | h | h
  · rw [roundQ_of_neg h, roundQ_neg, pos (-q) (neg_pos.mpr h)]
  · subst h; simp [roundQ_zero]
  · rw [roundQ_of_pos h, pos q h]

theorem roundQ_one : roundQ 1 = 1 := by
  have := roundQ_dyadic 1 0 (by norm_num) (by norm_num)
  simpa using this

/-- Value of a rounding from the binade and the nearest significand. -/
theorem roundQ_eq_of_near {q : ℚ} (k e m : ℤ) (h1 : (2 : ℚ) ^ k ≤ q)
    (h2 : q < (2 : ℚ) ^ (k + 1)) (he : e = max (k - 52) (-1074))
    (hlo : (m : ℚ) - 1 / 2 < q * (2 : ℚ) ^ (-e)) (hhi : q * (2 : ℚ) ^ (-e) < (m : ℚ) + 1 / 2) :
    roundQ q = (m : ℚ) * (2 : ℚ) ^ e := by
  have hq : 0 < q := lt_of_lt_of_le (two_zpow_pos k) h1
  have hu : ulpExp q = e := by
    unfold ulpExp
    rw [log_eq_of_bounds h1 h2, he]
  rw [roundQ_of_pos hq]
  unfold roundPos
  rw [hu, roundHalfEven_eq_of_lt hlo hhi]

/-- Value of a rounding that falls half way between two significands, the
lower one being even. -/
theorem roundQ_eq_of_tie_even {q : ℚ} (k e m : ℤ) (h1 : (2 : ℚ) ^ k ≤ q)
    (h2 : q < (2 : ℚ) ^ (k + 1)) (he : e = max (k - 52) (-1074))
    (ht : q * (2 : ℚ) ^ (-e) = (m : ℚ) + 1 / 2) (hm : m % 2 = 0) :
    roundQ q = (m : ℚ) * (2 : ℚ) ^ e := by
  have hq : 0 < q := lt_of_lt_of_le (two_zpow_pos k) h1
  have hu : ulpExp q = e := by
    unfold ulpExp
    rw [log_eq_of_bounds h1 h2, he]
  rw [roundQ_of_pos hq]
  unfold roundPos
  rw [hu, roundHalfEven_tie ht, if_pos hm]

/-- Value of a rounding that falls half way between two significands, the
lower one being odd. -/
theorem roundQ_eq_of_tie_odd {q : ℚ} (k e m : ℤ) (h1 : (2 : ℚ) ^ k ≤ q)
    (h2 : q < (2 : ℚ) ^ (k + 1)) (he : e = max (k - 52) (-1074))
    (ht : q * (2 : ℚ) ^ (-e) = (m : ℚ) + 1 / 2) (hm : m % 2 = 1) :
    roundQ q = ((m + 1 : ℤ) : ℚ) * (2 : ℚ) ^ e := by
  have hq : 0 < q := lt_of_lt_of_le (two_zpow_pos k) h1
  have hu : ulpExp q = e := by
    unfold ulpExp
    rw [log_eq_of_bounds h1 h2, he]
  rw [roundQ_of_pos hq]
  unfold roundPos
  rw [hu, roundHalfEven_tie ht, if_neg (by omega)]

/-! ## Binary64 values of `nodeOrderFn` -/

theorem Float64.le_fin_fin (a b : ℚ) :
    Float64.le (Float64.fin a) (Float64.fin b) = true ↔ a ≤ b := by
  simp [Float64.le]

/-- A rounding that stays below `2 ^ 1024` in magnitude is finite. -/
theorem Float64.round_eq_fin {q : ℚ} (hlo : -(2 : ℚ) ^ 1024 < roundQ q)
    (hhi : roundQ q < (2 : ℚ) ^ 1024) : Float64.round q = Float64.fin (roundQ q) := by
  unfold Float64.round
  rw [if_neg (not_le.mpr hhi), if_neg (not_le.mpr hlo)]

theorem roundQ_two_pow_63 : roundQ ((2 : ℚ) ^ 63) = (2 : ℚ) ^ 63 := by
  have h := roundQ_dyadic 1 63 (by norm_num) (by norm_num)
  have e : ((1 : ℤ) : ℚ) * (2 : ℚ) ^ (63 : ℤ) = (2 : ℚ) ^ 63 := by norm_num
  rw [e] at h
  exact h

/-- Rounding keeps a number within `[-2 ^ 63, 2 ^ 63]` there. -/
theorem roundQ_bounds {q : ℚ} (hlo : -(2 : ℚ) ^ 63 ≤ q) (hhi : q ≤ (2 : ℚ) ^ 63) :
    -(2 : ℚ) ^ 63 ≤ roundQ q ∧ roundQ q ≤ (2 : ℚ) ^ 63 := by
  constructor
  · have := roundQ_mono hlo
    rw [roundQ_neg, roundQ_two_pow_63] at this
    exact this
  · have := roundQ_mono hhi
    rw [roundQ_two_pow_63] at this
    exact this

theorem Float64.round_of_bounds {q : ℚ} (hlo : -(2 : ℚ) ^ 63 ≤ q) (hhi : q ≤ (2 : ℚ) ^ 63) :
    Float64.round q = Float64.fin (roundQ q) := by
  obtain ⟨h1, h2⟩ := roundQ_bounds hlo hhi
  have hb : (2 : ℚ) ^ 63 < (2 : ℚ) ^ 1024 := by norm_num
  exact Float64.round_eq_fin (by linarith) (by linarith)

/-- Rounding keeps a number of `[0, 1]` there. -/
theorem roundQ_unit {t : ℚ} (h0 : 0 ≤ t) (h1 : t ≤ 1) : 0 ≤ roundQ t ∧ roundQ t ≤ 1 := by
  constructor
  · exact roundQ_nonneg h0
  · have := roundQ_mono h1
    rw [roundQ_one] at this
    exact this

/-- The converted weight of a policy whose weight is a 64-bit integer. -/
theorem weight_bounds {w : Int} (hw : -2 ^ 63 ≤ w ∧ w < 2 ^ 63) :
    -(2 : ℚ) ^ 63 ≤ roundQ (w : ℚ) ∧ roundQ (w : ℚ) ≤ (2 : ℚ) ^ 63 := by
  refine roundQ_bounds ?_ ?_
  · have : ((-2 ^ 63 : Int) : ℚ) ≤ (w : ℚ) := by exact_mod_cast hw.1
    simpa using this
  · have : (w : ℚ) ≤ ((2 ^ 63 : Int) : ℚ) := by exact_mod_cast hw.2.le
    simpa using this

theorem mul_unit_bounds {W t : ℚ} (hW : -(2 : ℚ) ^ 63 ≤ W ∧ W ≤ (2 : ℚ) ^ 63)
    (ht : 0 ≤ t ∧ t ≤ 1) : -(2 : ℚ) ^ 63 ≤ W * t ∧ W * t ≤ (2 : ℚ) ^ 63 := by
  obtain ⟨h1, h2⟩ := hW
  obtain ⟨h3, h4⟩ := ht
  constructor <;> nlinarith

/-- The score, for a 64-bit weight and a 5-minute CPU usage in `[0, 1]`: the
three roundings of the code, each finite. -/
theorem nodeOrderFn_score (up : usagePlugin) (task : TaskInfo) (node : NodeInfo) (u : ℚ)
    (hu : node.ResourceUsage.CpuUsageAvg.lookup "5m" = some u)
    (h0 : 0 ≤ u) (h1 : u ≤ 1) (hw : -2 ^ 63 ≤ up.weight ∧ up.weight < 2 ^ 63) :
    (nodeOrderFn up task node).1 =
      Float64.fin (roundQ (roundQ (up.weight : ℚ) * roundQ (1 - u))) := by
  have hu' : node.ResourceUsage.CpuUsageAvg.lookup cpuUsageAvg5m = some u := hu
  have ht := roundQ_unit (t := 1 - u) (by linarith) (by linarith)
  have hW := weight_bounds hw
  have hp := mul_unit_bounds hW ht
  have hs : Float64.sub (Float64.fin 1) (Float64.fin u) = Float64.fin (roundQ (1 - u)) := by
    show Float64.round (1 - u) = _
    exact Float64.round_of_bounds (by linarith [ht.1, (by norm_num : (0:ℚ) ≤ 2 ^ 63)] )
      (by
        have : (1 : ℚ) ≤ (2 : ℚ) ^ 63 := by norm_num
        linarith)
  have hi : Float64.ofInt up.weight = Float64.fin (roundQ (up.weight : ℚ)) := by
    unfold Float64.ofInt
    refine Float64.round_of_bounds ?_ ?_
    · have : ((-2 ^ 63 : Int) : ℚ) ≤ (up.weight : ℚ) := by exact_mod_cast hw.1
      simpa using this
    · have : (up.weight : ℚ) ≤ ((2 ^ 63 : Int) : ℚ) := by exact_mod_cast hw.2.le
      simpa using this
  simp only [nodeOrderFn, hu', hs, hi]
  show Float64.round _ = _
  exact Float64.round_of_bounds hp.1 hp.2

/-- Rounding fixes a number given as `m * 2 ^ e` with `|m| < 2 ^ 53` and
`-1074 ≤ e`. -/
theorem roundQ_eq_self_of_dyadic {q : ℚ} (m e : ℤ) (hq : q = (m : ℚ) * (2 : ℚ) ^ e)
    (hm : |m| < 2 ^ 53) (he : -1074 ≤ e) : roundQ q = q := by
  rw [hq]
  exact roundQ_dyadic m e hm he

/-- An integer of magnitude at most `2 ^ 53` converts to `float64` exactly. -/
theorem Float64.ofInt_exact (w : Int) (hw : |w| ≤ 2 ^ 53) :
    Float64.ofInt w = Float64.fin (w : ℚ) := by
  have hr : roundQ (w : ℚ) = (w : ℚ) := by
    rcases lt_or_eq_of_le hw with h | h
    · exact roundQ_eq_self_of_dyadic w 0 (by simp) h (by norm_num)
    · have h52 : ∀ v : ℤ, v = 2 ^ 53 → roundQ (v : ℚ) = (v : ℚ) := by
        intro v hv
        refine roundQ_eq_self_of_dyadic (2 ^ 52) 1 ?_ (by norm_num) (by norm_num)
        rw [hv]
        norm_num
      rcases abs_eq (by norm_num : (0 : ℤ) ≤ 2 ^ 53) |>.mp h with h1 | h1
      · exact h52 w h1
      · have := h52 (-w) (by omega)
        have e1 : (((-w : ℤ)) : ℚ) = -(w : ℚ) := by push_cast; ring
        rw [e1, roundQ_neg] at this
        linarith
  have hb := abs_le.mp hw
  have hf : Float64.round (w : ℚ) = Float64.fin (roundQ (w : ℚ)) := by
    refine Float64.round_of_bounds ?_ ?_
    · have : ((-2 ^ 63 : Int) : ℚ) ≤ (w : ℚ) := by
        exact_mod_cast (by omega : (-2 ^ 63 : Int) ≤ w)
      simpa using this
    · have : (w : ℚ) ≤ ((2 ^ 63 : Int) : ℚ) := by
        exact_mod_cast (by omega : w ≤ (2 ^ 63 : Int))
      simpa using this
  unfold Float64.ofInt
  rw [hf, hr]

/-! ## Node ordering -/

/-- C2: `nodeOrderFn` never returns an error; the score is `0` when the
snapshot has no CPU entry for `"5m"` and `weight * (1 - cpuUsage)`, computed
in `float64` as the code writes it, when it has the entry `cpuUsage`; any
policy of the same weight and any snapshot with the same `"5m"` CPU reading
(whatever the thresholds, the task, the memory usage and the other CPU
windows) gives the same result. -/
theorem nodeOrderFn_spec (up : usagePlugin) (task : TaskInfo) (node : NodeInfo) :
    (nodeOrderFn up task node).2 = none ∧
    (node.ResourceUsage.CpuUsageAvg.lookup "5m" = none →
      (nodeOrderFn up task node).1 = Float64.fin 0) ∧
    (∀ cpuUsage : ℚ, node.ResourceUsage.CpuUsageAvg.lookup "5m" = some cpuUsage →
      (nodeOrderFn up task node).1 =
        Float64.mul (Float64.ofInt up.weight)
          (Float64.sub (Float64.fin 1) (Float64.fin cpuUsage))) ∧
    (∀ (up' : usagePlugin) (task' : TaskInfo) (node' : NodeInfo),
      up'.weight = up.weight →
      node'.ResourceUsage.CpuUsageAvg.lookup "5m" = node.ResourceUsage.CpuUsageAvg.lookup "5m" →
      nodeOrderFn up' task' node' = nodeOrderFn up task node) := by
  refine ⟨?_, ?_, ?_, ?_⟩
  · unfold nodeOrderFn
    cases node.ResourceUsage.CpuUsageAvg.lookup cpuUsageAvg5m <;> rfl
  · intro h
    have h' : node.ResourceUsage.CpuUsageAvg.lookup cpuUsageAvg5m = none := h
    simp [nodeOrderFn, h']
  · intro cpuUsage h
    have h' : node.ResourceUsage.CpuUsageAvg.lookup cpuUsageAvg5m = some cpuUsage := h
    simp [nodeOrderFn, h']
  · intro up' task' node' hw hl
    have hl' : node'.ResourceUsage.CpuUsageAvg.lookup cpuUsageAvg5m =
        node.ResourceUsage.CpuUsageAvg.lookup cpuUsageAvg5m := hl
    simp only [nodeOrderFn, hl', hw]

/-- Witness of C2: weight `2`, 5-minute CPU usage `1/4`, thresholds and other
readings arbitrary. -/
theorem nodeOrderFn_spec_witness :
    (nodeOrderFn ⟨2, ⟨GoMap.alloc [("5m", 1/10)], GoMap.nilMap⟩⟩ ⟨"default", "job-0"⟩
        ⟨"node-1", ⟨GoMap.alloc [("10m", 3/4), ("5m", 1/4)], GoMap.alloc [("5m", 9/10)]⟩⟩).1 =
      Float64.mul (Float64.ofInt 2) (Float64.sub (Float64.fin 1) (Float64.fin (1/4))) ∧
    (nodeOrderFn ⟨2, ⟨GoMap.nilMap, GoMap.nilMap⟩⟩ ⟨"default", "job-0"⟩
        ⟨"node-1", ⟨GoMap.alloc [("10m", 3/4)], GoMap.alloc [("5m", 9/10)]⟩⟩).1 =
      Float64.fin 0 :=
  ⟨(nodeOrderFn_spec ⟨2, ⟨GoMap.alloc [("5m", 1/10)], GoMap.nilMap⟩⟩ ⟨"default", "job-0"⟩
      ⟨"node-1", ⟨GoMap.alloc [("10m", 3/4), ("5m", 1/4)], GoMap.alloc [("5m", 9/10)]⟩⟩).2.2.1
      (1/4) rfl,
   (nodeOrderFn_spec ⟨2, ⟨GoMap.nilMap, GoMap.nilMap⟩⟩ ⟨"default", "job-0"⟩
      ⟨"node-1", ⟨GoMap.alloc [("10m", 3/4)], GoMap.alloc [("5m", 9/10)]⟩⟩).2.1 rfl⟩

/-- The binary64 value of the literal `0.9`. -/
theorem roundQ_nine_tenths :
    roundQ (9 / 10) = 8106479329266893 / 9007199254740992 := by
  rw [roundQ_eq_of_near (-1) (-53) 8106479329266893 (by norm_num) (by norm_num) (by norm_num)
    (by norm_num) (by norm_num)]
  norm_num

/-- The binary64 value of the literal `0.3`. -/
theorem roundQ_three_tenths :
    roundQ (3 / 10) = 5404319552844595 / 18014398509481984 := by
  rw [roundQ_eq_of_near (-2) (-54) 5404319552844595 (by norm_num) (by norm_num) (by norm_num)
    (by norm_num) (by norm_num)]
  norm_num

/-- The binary64 value of the literal `0.7`. -/
theorem roundQ_seven_tenths :
    roundQ (7 / 10) = 3152519739159347 / 4503599627370496 := by
  rw [roundQ_eq_of_near (-1) (-53) 6305039478318694 (by norm_num) (by norm_num) (by norm_num)
    (by norm_num) (by norm_num)]
  norm_num

/-- The binary64 value of the literal `0.1`. -/
theorem roundQ_one_tenth :
    roundQ (1 / 10) = 3602879701896397 / 36028797018963968 := by
  rw [roundQ_eq_of_near (-4) (-56) 7205759403792794 (by norm_num) (by norm_num) (by norm_num)
    (by norm_num) (by norm_num)]
  norm_num

/-- The score of weight `1` at the binary64 usage `0.9`: `1 - 0.9` is exact
and is not the binary64 value of `0.1`. -/
theorem score_at_nine_tenths (task : TaskInfo) (name : String) (mem thr1 thr2 : GoMap) :
    (nodeOrderFn ⟨1, ⟨thr1, thr2⟩⟩ task
        ⟨name, ⟨GoMap.alloc [("5m", 8106479329266893 / 9007199254740992)], mem⟩⟩).1 =
      Float64.fin (900719925474099 / 9007199254740992) := by
  rw [nodeOrderFn_score ⟨1, ⟨thr1, thr2⟩⟩ task
    ⟨name, ⟨GoMap.alloc [("5m", 8106479329266893 / 9007199254740992)], mem⟩⟩
    (8106479329266893 / 9007199254740992) rfl (by norm_num) (by norm_num)
    ⟨by norm_num, by norm_num⟩]
  have h1 : roundQ (((1 : Int)) : ℚ) = 1 := by
    simpa using roundQ_one
  have h2 : roundQ (1 - 8106479329266893 / 9007199254740992) =
      900719925474099 / 9007199254740992 := by
    have e : (1 : ℚ) - 8106479329266893 / 9007199254740992 =
        900719925474099 / 9007199254740992 := by norm_num
    rw [e]
    exact roundQ_eq_self_of_dyadic 900719925474099 (-53) (by norm_num) (by norm_num)
      (by norm_num)
  show Float64.fin (roundQ (roundQ (((1 : Int)) : ℚ) * _)) = _
  rw [h1, h2, one_mul]
  congr 1
  exact roundQ_eq_self_of_dyadic 900719925474099 (-53) (by norm_num) (by norm_num)
    (by norm_num)

/-- The score of weight `1` at the binary64 usage `0.3` is the binary64 value
of `0.7`. -/
theorem score_at_three_tenths (task : TaskInfo) (name : String) (mem thr1 thr2 : GoMap) :
    (nodeOrderFn ⟨1, ⟨thr1, thr2⟩⟩ task
        ⟨name, ⟨GoMap.alloc [("5m", 5404319552844595 / 18014398509481984)], mem⟩⟩).1 =
      Float64.fin (3152519739159347 / 4503599627370496) := by
  rw [nodeOrderFn_score ⟨1, ⟨thr1, thr2⟩⟩ task
    ⟨name, ⟨GoMap.alloc [("5m", 5404319552844595 / 18014398509481984)], mem⟩⟩
    (5404319552844595 / 18014398509481984) rfl (by norm_num) (by norm_num)
    ⟨by norm_num, by norm_num⟩]
  have h1 : roundQ (((1 : Int)) : ℚ) = 1 := by
    simpa using roundQ_one
  have h2 : roundQ (1 - 5404319552844595 / 18014398509481984) =
      3152519739159347 / 4503599627370496 := by
    rw [roundQ_eq_of_tie_even (-1) (-53) 6305039478318694 (by norm_num) (by norm_num)
      (by norm_num) (by norm_num) (by norm_num)]
    norm_num
  show Float64.fin (roundQ (roundQ (((1 : Int)) : ℚ) * _)) = _
  rw [h1, h2, one_mul]
  congr 1
  exact roundQ_eq_self_of_dyadic 3152519739159347 (-52) (by norm_num) (by norm_num)
    (by norm_num)

/-- Counterexample to C9: with weight `1` and the 5-minute CPU usage `0.9`
(its binary64 value), the score is `900719925474099 / 2 ^ 53`
(0.09999999999999998), not the binary64 value of `0.1`. -/
theorem nodeOrderFn_nine_tenths_not_one_tenth :
    roundQ (9 / 10) = 8106479329266893 / 9007199254740992 ∧
    (nodeOrderFn ⟨1, ⟨GoMap.nilMap, GoMap.nilMap⟩⟩ ⟨"default", "job-0"⟩
        ⟨"node-b", ⟨GoMap.alloc [("5m", 8106479329266893 / 9007199254740992)],
          GoMap.nilMap⟩⟩).1 =
      Float64.fin (900719925474099 / 9007199254740992) ∧
    Float64.round (1 / 10) = Float64.fin (3602879701896397 / 36028797018963968) ∧
    (nodeOrderFn ⟨1, ⟨GoMap.nilMap, GoMap.nilMap⟩⟩ ⟨"default", "job-0"⟩
        ⟨"node-b", ⟨GoMap.alloc [("5m", 8106479329266893 / 9007199254740992)],
          GoMap.nilMap⟩⟩).1 ≠ Float64.round (1 / 10) := by
  have h10 : Float64.round (1 / 10) =
      Float64.fin (3602879701896397 / 36028797018963968) := by
    rw [Float64.round_of_bounds (by norm_num) (by norm_num), roundQ_one_tenth]
  refine ⟨roundQ_nine_tenths, score_at_nine_tenths _ _ _ _ _, h10, ?_⟩
  rw [score_at_nine_tenths, h10]
  intro h
  have := Float64.fin.inj h
  norm_num at this

/-- C9 (amended): for a policy whose weight is a 64-bit integer and two
snapshots whose 5-minute CPU usages `a` and `b` satisfy `0 ≤ a < b ≤ 1`, the
score at `a` is at least the score at `b` when the weight is positive, at most
the score at `b` when the weight is negative, and both scores are `0` when
the weight is `0`. -/
theorem nodeOrderFn_monotone (up : usagePlugin) (ta tb : TaskInfo) (na nb : NodeInfo)
    (a b : ℚ)
    (ha : na.ResourceUsage.CpuUsageAvg.lookup "5m" = some a)
    (hb : nb.ResourceUsage.CpuUsageAvg.lookup "5m" = some b)
    (h0 : 0 ≤ a) (hab : a < b) (h1 : b ≤ 1)
    (hw : -2 ^ 63 ≤ up.weight ∧ up.weight < 2 ^ 63) :
    (0 < up.weight →
      Float64.le (nodeOrderFn up tb nb).1 (nodeOrderFn up ta na).1 = true) ∧
    (up.weight < 0 →
      Float64.le (nodeOrderFn up ta na).1 (nodeOrderFn up tb nb).1 = true) ∧
    (up.weight = 0 →
      (nodeOrderFn up ta na).1 = Float64.fin 0 ∧ (nodeOrderFn up tb nb).1 = Float64.fin 0) := by
  rw [nodeOrderFn_score up ta na a ha h0 (by linarith) hw,
    nodeOrderFn_score up tb nb b hb (by linarith) h1 hw]
  have ht : roundQ (1 - b) ≤ roundQ (1 - a) := roundQ_mono (by linarith)
  refine ⟨fun hpos => ?_, fun hneg => ?_, fun hz => ?_⟩
  · rw [Float64.le_fin_fin]
    have hW : 0 ≤ roundQ (up.weight : ℚ) := roundQ_nonneg (by exact_mod_cast hpos.le)
    exact roundQ_mono (mul_le_mul_of_nonneg_left ht hW)
  · rw [Float64.le_fin_fin]
    have hW : roundQ (up.weight : ℚ) ≤ 0 := roundQ_nonpos (by exact_mod_cast hneg.le)
    exact roundQ_mono (mul_le_mul_of_nonpos_left ht hW)
  · rw [hz]
    simp [roundQ_zero]

/-- Witness of C9: weight `1`; usage `0.3` scores `0.7` and usage `0.9` scores
`0.09999999999999998` (binary64 values throughout), the former being the
larger. -/
theorem nodeOrderFn_monotone_witness :
    roundQ (3 / 10) = 5404319552844595 / 18014398509481984 ∧
    (nodeOrderFn ⟨1, ⟨GoMap.nilMap, GoMap.nilMap⟩⟩ ⟨"default", "job-0"⟩
        ⟨"node-a", ⟨GoMap.alloc [("5m", 5404319552844595 / 18014398509481984)],
          GoMap.nilMap⟩⟩).1 = Float64.fin (roundQ (7 / 10)) ∧
    (nodeOrderFn ⟨1, ⟨GoMap.nilMap, GoMap.nilMap⟩⟩ ⟨"default", "job-0"⟩
        ⟨"node-b", ⟨GoMap.alloc [("5m", 8106479329266893 / 9007199254740992)],
          GoMap.nilMap⟩⟩).1 = Float64.fin (900719925474099 / 9007199254740992) ∧
    Float64.le
      (nodeOrderFn ⟨1, ⟨GoMap.nilMap, GoMap.nilMap⟩⟩ ⟨"default", "job-0"⟩
        ⟨"node-b", ⟨GoMap.alloc [("5m", 8106479329266893 / 9007199254740992)],
          GoMap.nilMap⟩⟩).1
      (nodeOrderFn ⟨1, ⟨GoMap.nilMap, GoMap.nilMap⟩⟩ ⟨"default", "job-0"⟩
        ⟨"node-a", ⟨GoMap.alloc [("5m", 5404319552844595 / 18014398509481984)],
          GoMap.nilMap⟩⟩).1 = true := by
  refine ⟨roundQ_three_tenths, ?_, score_at_nine_tenths _ _ _ _ _,
    (nodeOrderFn_monotone ⟨1, ⟨GoMap.nilMap, GoMap.nilMap⟩⟩ ⟨"default", "job-0"⟩
      ⟨"default", "job-0"⟩
      ⟨"node-a", ⟨GoMap.alloc [("5m", 5404319552844595 / 18014398509481984)], GoMap.nilMap⟩⟩
      ⟨"node-b", ⟨GoMap.alloc [("5m", 8106479329266893 / 9007199254740992)], GoMap.nilMap⟩⟩
      (5404319552844595 / 18014398509481984) (8106479329266893 / 9007199254740992) rfl rfl
      (by norm_num) (by norm_num) (by norm_num) ⟨by norm_num, by norm_num⟩).1 (by norm_num)⟩
  rw [score_at_three_tenths, roundQ_seven_tenths]

/-! ## Score range -/

/-- Counterexample to C19: with the weight `2 ^ 53 + 3` and the 5-minute CPU
usage `0`, the score is `2 ^ 53 + 4`, above the weight. -/
theorem nodeOrderFn_score_above_weight :
    (nodeOrderFn ⟨9007199254740995, ⟨GoMap.nilMap, GoMap.nilMap⟩⟩ ⟨"default", "job-0"⟩
        ⟨"node-1", ⟨GoMap.alloc [("5m", 0)], GoMap.nilMap⟩⟩).1 =
      Float64.fin 9007199254740996 ∧
    (((9007199254740995 : Int)) : ℚ) < 9007199254740996 := by
  refine ⟨?_, by norm_num⟩
  rw [nodeOrderFn_score ⟨9007199254740995, ⟨GoMap.nilMap, GoMap.nilMap⟩⟩ ⟨"default", "job-0"⟩
    ⟨"node-1", ⟨GoMap.alloc [("5m", 0)], GoMap.nilMap⟩⟩ 0 rfl (by norm_num) (by norm_num)
    ⟨by norm_num, by norm_num⟩]
  have hw : roundQ (((9007199254740995 : Int)) : ℚ) = 9007199254740996 := by
    rw [roundQ_eq_of_tie_odd 53 1 4503599627370497 (by norm_num) (by norm_num) (by norm_num)
      (by norm_num) (by norm_num)]
    norm_num
  show Float64.fin (roundQ (roundQ (((9007199254740995 : Int)) : ℚ) * roundQ (1 - 0))) = _
  rw [hw, sub_zero, roundQ_one, mul_one]
  congr 1
  exact roundQ_eq_self_of_dyadic 2251799813685249 2 (by norm_num) (by norm_num) (by norm_num)

/-- C19 (amended): for a policy whose weight `w` is a 64-bit integer and a
snapshot whose 5-minute CPU usage is absent or lies in `[0, 1]`, the score
lies between `0` and `float64(w)`: `0 ≤ score ≤ float64(w)` when `w ≥ 0` and
`float64(w) ≤ score ≤ 0` when `w < 0`; it is `float64(w)` at usage `0` and `0`
at usage `1`; and `float64(w)` is `w` itself when `|w| ≤ 2 ^ 53`. -/
theorem nodeOrderFn_range (up : usagePlugin) (task : TaskInfo) (node : NodeInfo)
    (h : node.ResourceUsage.CpuUsageAvg.lookup "5m" = none ∨
      ∃ u, node.ResourceUsage.CpuUsageAvg.lookup "5m" = some u ∧ 0 ≤ u ∧ u ≤ 1)
    (hw : -2 ^ 63 ≤ up.weight ∧ up.weight < 2 ^ 63) :
    (0 ≤ up.weight →
      Float64.le (Float64.fin 0) (nodeOrderFn up task node).1 = true ∧
      Float64.le (nodeOrderFn up task node).1 (Float64.ofInt up.weight) = true) ∧
    (up.weight < 0 →
      Float64.le (Float64.ofInt up.weight) (nodeOrderFn up task node).1 = true ∧
      Float64.le (nodeOrderFn up task node).1 (Float64.fin 0) = true) ∧
    (∀ u, node.ResourceUsage.CpuUsageAvg.lookup "5m" = some u →
      (u = 0 → (nodeOrderFn up task node).1 = Float64.ofInt up.weight) ∧
      (u = 1 → (nodeOrderFn up task node).1 = Float64.fin 0)) ∧
    (|up.weight| ≤ 2 ^ 53 → Float64.ofInt up.weight = Float64.fin (up.weight : ℚ)) := by
  have hWb := weight_bounds hw
  have hi : Float64.ofInt up.weight = Float64.fin (roundQ (up.weight : ℚ)) := by
    unfold Float64.ofInt
    have hb : (2 : ℚ) ^ 63 < (2 : ℚ) ^ 1024 := by norm_num
    exact Float64.round_eq_fin (by linarith [hWb.1]) (by linarith [hWb.2])
  have hnone : node.ResourceUsage.CpuUsageAvg.lookup "5m" = none →
      (nodeOrderFn up task node).1 = Float64.fin 0 := by
    intro hu
    have hu' : node.ResourceUsage.CpuUsageAvg.lookup cpuUsageAvg5m = none := hu
    simp [nodeOrderFn, hu']
  refine ⟨fun hpos => ?_, fun hneg => ?_, fun u hu => ⟨fun hu0 => ?_, fun hu1 => ?_⟩,
    fun hs => Float64.ofInt_exact up.weight hs⟩
  · have hW : 0 ≤ roundQ (up.weight : ℚ) := roundQ_nonneg (by exact_mod_cast hpos)
    rcases h with hn | ⟨u, hu, h0, h1⟩
    · rw [hnone hn, hi, Float64.le_fin_fin, Float64.le_fin_fin]
      exact ⟨le_refl _, hW⟩
    · rw [nodeOrderFn_score up task node u hu h0 h1 hw, hi, Float64.le_fin_fin,
        Float64.le_fin_fin]
      have ht := roundQ_unit (t := 1 - u) (by linarith) (by linarith)
      constructor
      · exact roundQ_nonneg (mul_nonneg hW ht.1)
      · have hle : roundQ (up.weight : ℚ) * roundQ (1 - u) ≤ roundQ (up.weight : ℚ) := by
          nlinarith [ht.1, ht.2]
        have := roundQ_mono hle
        rw [roundQ_idem] at this
        exact this
  · have hW : roundQ (up.weight : ℚ) ≤ 0 := roundQ_nonpos (by exact_mod_cast hneg.le)
    rcases h with hn | ⟨u, hu, h0, h1⟩
    · rw [hnone hn, hi, Float64.le_fin_fin, Float64.le_fin_fin]
      exact ⟨hW, le_refl _⟩
    · rw [nodeOrderFn_score up task node u hu h0 h1 hw, hi, Float64.le_fin_fin,
        Float64.le_fin_fin]
      have ht := roundQ_unit (t := 1 - u) (by linarith) (by linarith)
      constructor
      · have hle : roundQ (up.weight : ℚ) ≤ roundQ (up.weight : ℚ) * roundQ (1 - u) := by
          nlinarith [ht.1, ht.2]
        have := roundQ_mono hle
        rw [roundQ_idem] at this
        exact this
      · exact roundQ_nonpos (mul_nonpos_of_nonpos_of_nonneg hW ht.1)
  · rw [nodeOrderFn_score up task node u hu (by rw [hu0]) (by rw [hu0]; norm_num) hw, hi, hu0,
      sub_zero, roundQ_one, mul_one, roundQ_idem]
  · rw [nodeOrderFn_score up task node u hu (by rw [hu1]; norm_num) (by rw [hu1]) hw, hu1,
      sub_self, roundQ_zero, mul_zero, roundQ_zero]

/-- Witness of C19: weight `3`, usage `1/4`: the score lies between `0` and
`float64(3)`, which is `3`. -/
theorem nodeOrderFn_range_witness :
    (Float64.le (Float64.fin 0)
        (nodeOrderFn ⟨3, ⟨GoMap.nilMap, GoMap.nilMap⟩⟩ ⟨"default", "job-0"⟩
          ⟨"node-1", ⟨GoMap.alloc [("5m", 1/4)], GoMap.nilMap⟩⟩).1 = true ∧
      Float64.le
        (nodeOrderFn ⟨3, ⟨GoMap.nilMap, GoMap.nilMap⟩⟩ ⟨"default", "job-0"⟩
          ⟨"node-1", ⟨GoMap.alloc [("5m", 1/4)], GoMap.nilMap⟩⟩).1
        (Float64.ofInt 3) = true) ∧
    Float64.ofInt 3 = Float64.fin (((3 : Int)) : ℚ) :=
  ⟨(nodeOrderFn_range ⟨3, ⟨GoMap.nilMap, GoMap.nilMap⟩⟩ ⟨"default", "job-0"⟩
      ⟨"node-1", ⟨GoMap.alloc [("5m", 1/4)], GoMap.nilMap⟩⟩
      (Or.inr ⟨1/4, rfl, by norm_num, by norm_num⟩) ⟨by norm_num, by norm_num⟩).1
      (by norm_num),
   (nodeOrderFn_range ⟨3, ⟨GoMap.nilMap, GoMap.nilMap⟩⟩ ⟨"default", "job-0"⟩
      ⟨"node-1", ⟨GoMap.alloc [("5m", 1/4)], GoMap.nilMap⟩⟩
      (Or.inr ⟨1/4, rfl, by norm_num, by norm_num⟩) ⟨by norm_num, by norm_num⟩).2.2.2
      (by norm_num)⟩

/-! ## Construction -/

theorem containsChars_of_isPrefixOf (s p : List Char) (h : p.isPrefixOf s = true) :
    containsChars s p = true := by
  cases s with
  | nil => simpa [containsChars] using h
  | cons c cs => simp [containsChars, h]

theorem stringsContains_of_hasPrefix (s p : String) (h : stringsHasPrefix s p = true) :
    stringsContains s p = true :=
  containsChars_of_isPrefixOf s.data p.data h

/-- A key holding neither token leaves the store as it is. -/
theorem newLoopBody_unrecognized (st : thresholdConfig) (k : String) (v : ℚ)
    (hc : stringsContains k cpuUsageAvgPrefix = false)
    (hm : stringsContains k memUsageAvgPrefix = false) :
    newLoopBody st k v = .ok st := by
  simp [newLoopBody, hc, hm]
  rfl

/-- On the store that `New` starts from, a key holding one of the tokens makes
the loop body write to a nil map. -/
theorem newLoopBody_nil_fault (k : String) (v : ℚ)
    (h : stringsContains k cpuUsageAvgPrefix = true ∨
      stringsContains k memUsageAvgPrefix = true) :
    newLoopBody ⟨GoMap.nilMap, GoMap.nilMap⟩ k v = .error Fault.nilMapWrite := by
  by_cases hc : stringsContains k cpuUsageAvgPrefix = true
  · simp [newLoopBody, hc, GoMap.set]
    rfl
  · have hm : stringsContains k memUsageAvgPrefix = true := h.resolve_left hc
    simp [newLoopBody, hc, hm, GoMap.set]

theorem newLoop_nil_fault (l : List (String × ℚ))
    (h : ∃ e ∈ l, stringsContains e.1 cpuUsageAvgPrefix = true ∨
      stringsContains e.1 memUsageAvgPrefix = true) :
    newLoop ⟨GoMap.nilMap, GoMap.nilMap⟩ l = .error Fault.nilMapWrite := by
  induction l with
  | nil => simp at h
  | cons x rest ih =>
    obtain ⟨k, v⟩ := x
    by_cases hk : stringsContains k cpuUsageAvgPrefix = true ∨
        stringsContains k memUsageAvgPrefix = true
    · simp [newLoop, newLoopBody_nil_fault k v hk]
    · have hc : stringsContains k cpuUsageAvgPrefix = false := by
        cases hh : stringsContains k cpuUsageAvgPrefix
        · rfl
        · exact absurd (Or.inl hh) hk
      have hm : stringsContains k memUsageAvgPrefix = false := by
        cases hh : stringsContains k memUsageAvgPrefix
        · rfl
        · exact absurd (Or.inr hh) hk
      have hrest : ∃ e ∈ rest, stringsContains e.1 cpuUsageAvgPrefix = true ∨
          stringsContains e.1 memUsageAvgPrefix = true := by
        obtain ⟨e, he, hp⟩ := h
        rcases List.mem_cons.mp he with rfl | he'
        · exact absurd hp hk
        · exact ⟨e, he', hp⟩
      simp only [newLoop, newLoopBody_unrecognized _ k v hc hm]
      exact ih hrest

theorem newLoop_unrecognized (st : thresholdConfig) (l : List (String × ℚ))
    (h : ∀ e ∈ l, stringsContains e.1 cpuUsageAvgPrefix = false ∧
      stringsContains e.1 memUsageAvgPrefix = false) :
    newLoop st l = .ok st := by
  induction l with
  | nil => rfl
  | cons x rest ih =>
    obtain ⟨k, v⟩ := x
    have hk := h (k, v) (List.mem_cons_self _ _)
    simp only [newLoop, newLoopBody_unrecognized st k v hk.1 hk.2]
    exact ih (fun e he => h e (List.mem_cons_of_mem _ he))

theorem New_of_section (args : Arguments) (raw : GoMap)
    (h : args.get thresholdSection = some (ArgValue.floatMap raw)) :
    New args =
      match newLoop ⟨GoMap.nilMap, GoMap.nilMap⟩ raw.entries with
      | .error f => .error f
      | .ok st => .ok { weight := args.GetInt 1 "usage.weight", threshold := st } := by
  simp [New, h, assertFloatMap]

/-- C5 (code defect): `New` starts from `thresholdConfig{}`, whose two maps are
nil, and never allocates them; whenever the `thresholds` section is a map of
numbers holding a key with one of the tokens `CpuUsageAvg.` / `MemUsageAvg.`,
in whatever order the entries are enumerated, `New` panics with an
assignment to an entry in a nil map instead of returning a policy. -/
theorem New_nil_map_write (args : Arguments) (raw : GoMap)
    (hsec : args.get thresholdSection = some (ArgValue.floatMap raw))
    (hkey : ∃ e ∈ raw.entries, stringsContains e.1 cpuUsageAvgPrefix = true ∨
      stringsContains e.1 memUsageAvgPrefix = true) :
    New args = .error Fault.nilMapWrite := by
  rw [New_of_section args raw hsec, newLoop_nil_fault raw.entries hkey]

/-- Failing input of C5: `thresholds: {CpuUsageAvg.5m: 0.8}`. -/
theorem New_nil_map_write_witness :
    New [("thresholds", ArgValue.floatMap (GoMap.alloc [("CpuUsageAvg.5m", 0.8)]))] =
      .error Fault.nilMapWrite :=
  New_nil_map_write
    [("thresholds", ArgValue.floatMap (GoMap.alloc [("CpuUsageAvg.5m", 0.8)]))]
    (GoMap.alloc [("CpuUsageAvg.5m", 0.8)]) rfl
    ⟨("CpuUsageAvg.5m", 0.8), by simp [entries_alloc], Or.inl (by decide)⟩

/-- C6 (code defect): when the arguments hold no `thresholds` entry, the
unchecked type assertion `args[thresholdSection].(map[string]float64)`
panics, so `New` returns no policy. -/
theorem New_absent_section (args : Arguments)
    (habs : args.get thresholdSection = none) :
    New args = .error Fault.typeAssertion := by
  simp [New, habs, assertFloatMap]

/-- Failing inputs of C6: the empty arguments, and arguments holding only a
weight. -/
theorem New_absent_section_witness :
    New [] = .error Fault.typeAssertion ∧
    New [("usage.weight", ArgValue.int 3)] = .error Fault.typeAssertion :=
  ⟨New_absent_section [] rfl, New_absent_section [("usage.weight", ArgValue.int 3)] rfl⟩

/-- C7 (code defect): a key of the raw `thresholds` map that starts with
`CpuUsageAvg.` or with `MemUsageAvg.` is never stored under its window label:
for every enumeration order, `New` panics on the write to the nil map and
constructs no threshold configuration. -/
theorem New_prefixed_key_not_stored (args : Arguments) (raw : GoMap) (k : String) (v : ℚ)
    (hsec : args.get thresholdSection = some (ArgValue.floatMap raw))
    (hk : (k, v) ∈ raw.entries)
    (hpre : stringsHasPrefix k "CpuUsageAvg." = true ∨
      stringsHasPrefix k "MemUsageAvg." = true) :
    New args = .error Fault.nilMapWrite ∧ ∀ p : usagePlugin, New args ≠ .ok p := by
  have hf : New args = .error Fault.nilMapWrite := by
    rw [New_of_section args raw hsec]
    rw [newLoop_nil_fault raw.entries
      ⟨(k, v), hk, hpre.imp (stringsContains_of_hasPrefix k _) (stringsContains_of_hasPrefix k _)⟩]
  refine ⟨hf, fun p hp => ?_⟩
  rw [hf] at hp
  cases hp

/-- Failing input of C7: `{CpuUsageAvg.5m: 0.80, MemUsageAvg.5m: 0.90}`, in
both enumeration orders. -/
theorem New_prefixed_key_not_stored_witness :
    New [("thresholds", ArgValue.floatMap
        (GoMap.alloc [("CpuUsageAvg.5m", 0.80), ("MemUsageAvg.5m", 0.90)]))] =
      .error Fault.nilMapWrite ∧
    New [("thresholds", ArgValue.floatMap
        (GoMap.alloc [("MemUsageAvg.5m", 0.90), ("CpuUsageAvg.5m", 0.80)]))] =
      .error Fault.nilMapWrite :=
  ⟨(New_prefixed_key_not_stored
      [("thresholds", ArgValue.floatMap
        (GoMap.alloc [("CpuUsageAvg.5m", 0.80), ("MemUsageAvg.5m", 0.90)]))]
      (GoMap.alloc [("CpuUsageAvg.5m", 0.80), ("MemUsageAvg.5m", 0.90)])
      "CpuUsageAvg.5m" 0.80 rfl (by simp [entries_alloc]) (Or.inl (by decide))).1,
   (New_prefixed_key_not_stored
      [("thresholds", ArgValue.floatMap
        (GoMap.alloc [("MemUsageAvg.5m", 0.90), ("CpuUsageAvg.5m", 0.80)]))]
      (GoMap.alloc [("MemUsageAvg.5m", 0.90), ("CpuUsageAvg.5m", 0.80)])
      "CpuUsageAvg.5m" 0.80 rfl (by simp [entries_alloc]) (Or.inl (by decide))).1⟩

/-- C8 (code defect): the key `xCpuUsageAvg.5m` starts with neither prefix,
yet `New` does not ignore it: the guard is `strings.Contains`, so the key is
taken for a CPU key; the loop body run on allocated maps stores it under the
label `x5m`, and `New` itself, whose maps are nil, panics on the write instead
of returning the empty configuration. -/
theorem New_infix_key_recognized :
    stringsHasPrefix "xCpuUsageAvg.5m" "CpuUsageAvg." = false ∧
    stringsHasPrefix "xCpuUsageAvg.5m" "MemUsageAvg." = false ∧
    newLoopBody ⟨GoMap.alloc [], GoMap.alloc []⟩ "xCpuUsageAvg.5m" 10 =
      .ok ⟨GoMap.alloc [("x5m", 10)], GoMap.alloc []⟩ ∧
    New [("thresholds", ArgValue.floatMap (GoMap.alloc [("xCpuUsageAvg.5m", 10)]))] =
      .error Fault.nilMapWrite := by
  refine ⟨by decide, by decide, rfl, rfl⟩

/-- Counterexample to C10: with `weight: 5` next to a `thresholds` section,
`New` returns a policy of weight `1`, not `5`. -/
theorem New_weight_key_not_read :
    ∃ p : usagePlugin,
      New [("thresholds", ArgValue.floatMap (GoMap.alloc [("Foo.5m", 10)])),
           ("weight", ArgValue.int 5)] = .ok p ∧
      p.weight = 1 ∧ p.weight ≠ 5 :=
  ⟨⟨1, ⟨GoMap.nilMap, GoMap.nilMap⟩⟩, rfl, rfl, by decide⟩

/-- C10 (amended): whenever `New` returns a policy, its weight is `1` if the
arguments hold no `usage.weight` entry and `w` if they hold the integer `w`
under the key `usage.weight`. -/
theorem New_weight (args : Arguments) (p : usagePlugin) (hp : New args = .ok p) :
    (args.get "usage.weight" = none → p.weight = 1) ∧
    (∀ w : Int, args.get "usage.weight" = some (ArgValue.int w) → p.weight = w) := by
  have hw : p.weight = args.GetInt 1 "usage.weight" := by
    unfold New at hp
    cases ha : assertFloatMap (args.get thresholdSection) with
    | error f => simp [ha] at hp
    | ok raw =>
      cases hl : newLoop ⟨GoMap.nilMap, GoMap.nilMap⟩ raw.entries with
      | error f => simp [ha, hl] at hp
      | ok st =>
        simp only [ha, hl, Except.ok.injEq] at hp
        rw [← hp]
  refine ⟨fun h => ?_, fun w h => ?_⟩
  · rw [hw]; simp [Arguments.GetInt, h]
  · rw [hw]; simp [Arguments.GetInt, h]

/-- Witness of C10: `usage.weight: 5` next to a `thresholds` section gives
weight `5`; without it the weight is `1`. -/
theorem New_weight_witness :
    (New [("thresholds", ArgValue.floatMap (GoMap.alloc [("Foo.5m", 10)])),
          ("usage.weight", ArgValue.int 5)] = .ok ⟨5, ⟨GoMap.nilMap, GoMap.nilMap⟩⟩ ∧
      (⟨5, ⟨GoMap.nilMap, GoMap.nilMap⟩⟩ : usagePlugin).weight = 5) ∧
    (New [("thresholds", ArgValue.floatMap (GoMap.alloc [("Foo.5m", 10)]))] =
        .ok ⟨1, ⟨GoMap.nilMap, GoMap.nilMap⟩⟩ ∧
      (⟨1, ⟨GoMap.nilMap, GoMap.nilMap⟩⟩ : usagePlugin).weight = 1) :=
  ⟨⟨rfl, (New_weight
      [("thresholds", ArgValue.floatMap (GoMap.alloc [("Foo.5m", 10)])),
       ("usage.weight", ArgValue.int 5)]
      ⟨5, ⟨GoMap.nilMap, GoMap.nilMap⟩⟩ rfl).2 5 rfl⟩,
   ⟨rfl, (New_weight
      [("thresholds", ArgValue.floatMap (GoMap.alloc [("Foo.5m", 10)]))]
      ⟨1, ⟨GoMap.nilMap, GoMap.nilMap⟩⟩ rfl).1 rfl⟩⟩

/-! ## Rejection reasons -/

theorem cpuLoop_eq_some_iff (up : usagePlugin) (task : TaskInfo) (node : NodeInfo)
    (l : List (String × ℚ)) :
    cpuLoop up task node l = some (cpuReason up task node) ↔
      ∃ e ∈ l, node.ResourceUsage.CpuUsageAvg.index e.1 > e.2 := by
  constructor
  · intro h
    by_contra hn
    have hnone := (cpuLoop_eq_none_iff up task node l).mpr
      (fun e he hgt => hn ⟨e, he, hgt⟩)
    rw [hnone] at h
    cases h
  · intro h
    cases hc : cpuLoop up task node l with
    | none =>
      obtain ⟨e, he, hgt⟩ := h
      exact absurd hgt ((cpuLoop_eq_none_iff up task node l).mp hc e he)
    | some r => rw [cpuLoop_eq_some up task node l r hc]; rfl

theorem memLoop_eq_some_iff (up : usagePlugin) (task : TaskInfo) (node : NodeInfo)
    (l : List (String × ℚ)) :
    memLoop up task node l = some (memReason up task node) ↔
      ∃ e ∈ l, node.ResourceUsage.MemUsageAvg.index e.1 > e.2 := by
  constructor
  · intro h
    by_contra hn
    have hnone := (memLoop_eq_none_iff up task node l).mpr
      (fun e he hgt => hn ⟨e, he, hgt⟩)
    rw [hnone] at h
    cases h
  · intro h
    cases hc : memLoop up task node l with
    | none =>
      obtain ⟨e, he, hgt⟩ := h
      exact absurd hgt ((memLoop_eq_none_iff up task node l).mp hc e he)
    | some r => rw [memLoop_eq_some up task node l r hc]; rfl

/-- The two reasons differ: they part at the metric kind. -/
theorem cpuReason_ne_memReason (up up' : usagePlugin) (task task' : TaskInfo)
    (node node' : NodeInfo) : cpuReason up task node ≠ memReason up' task' node' := by
  intro h
  have hd := congrArg String.data h
  simp [cpuReason, memReason, usagePlugin.Name, PluginName, String.data_append] at hd

/-- A CPU threshold exceeded by the one-result index makes `predicateFn`
return the CPU reason. -/
theorem predicateFn_of_cpu (up : usagePlugin) (task : TaskInfo) (node : NodeInfo)
    (h : ∃ e ∈ up.threshold.cpuUsageAvg.entries,
      node.ResourceUsage.CpuUsageAvg.index e.1 > e.2) :
    predicateFn up task node = some (cpuReason up task node) := by
  simp [predicateFn, (cpuLoop_eq_some_iff up task node _).mpr h]

/-- With no CPU threshold exceeded, an exceeded memory threshold makes
`predicateFn` return the memory reason. -/
theorem predicateFn_of_mem (up : usagePlugin) (task : TaskInfo) (node : NodeInfo)
    (hc : ¬ ∃ e ∈ up.threshold.cpuUsageAvg.entries,
      node.ResourceUsage.CpuUsageAvg.index e.1 > e.2)
    (hm : ∃ e ∈ up.threshold.memUsageAvg.entries,
      node.ResourceUsage.MemUsageAvg.index e.1 > e.2) :
    predicateFn up task node = some (memReason up task node) := by
  have hnone := (cpuLoop_eq_none_iff up task node up.threshold.cpuUsageAvg.entries).mpr
    (fun e he hgt => hc ⟨e, he, hgt⟩)
  simp [predicateFn, hnone, (memLoop_eq_some_iff up task node _).mpr hm]

/-- With no threshold exceeded, `predicateFn` returns nil. -/
theorem predicateFn_of_none (up : usagePlugin) (task : TaskInfo) (node : NodeInfo)
    (hc : ¬ ∃ e ∈ up.threshold.cpuUsageAvg.entries,
      node.ResourceUsage.CpuUsageAvg.index e.1 > e.2)
    (hm : ¬ ∃ e ∈ up.threshold.memUsageAvg.entries,
      node.ResourceUsage.MemUsageAvg.index e.1 > e.2) :
    predicateFn up task node = none :=
  (predicateFn_eq_none_iff up task node).mpr
    ⟨fun e he hgt => hc ⟨e, he, hgt⟩, fun e he hgt => hm ⟨e, he, hgt⟩⟩

/-- The CPU reason written out: it is made of the plugin name, the metric
kind, the task's namespace and name and the node's name, and of nothing else. -/
theorem cpuReason_eq (up : usagePlugin) (task : TaskInfo) (node : NodeInfo) :
    cpuReason up task node =
      "plugin usage cpu usage predicates task " ++ task.Namespace ++ "/" ++ task.Name ++
        " is not allow to dispatch to node " ++ node.Name := by
  apply String.ext
  simp [cpuReason, notAllowMsg, usagePlugin.Name, PluginName, String.data_append]

/-- The memory reason written out. -/
theorem memReason_eq (up : usagePlugin) (task : TaskInfo) (node : NodeInfo) :
    memReason up task node =
      "plugin usage mem usage predicates task " ++ task.Namespace ++ "/" ++ task.Name ++
        " is not allow to dispatch to node " ++ node.Name := by
  apply String.ext
  simp [memReason, notAllowMsg, usagePlugin.Name, PluginName, String.data_append]

/-- A rejection carries the CPU reason or the memory reason, according to the
loop that found an exceeded threshold. -/
theorem predicateFn_some_cases (up : usagePlugin) (task : TaskInfo) (node : NodeInfo)
    (e : String) (h : predicateFn up task node = some e) :
    (e = cpuReason up task node ∧
      ∃ x ∈ up.threshold.cpuUsageAvg.entries,
        node.ResourceUsage.CpuUsageAvg.index x.1 > x.2) ∨
    (e = memReason up task node ∧
      (¬ ∃ x ∈ up.threshold.cpuUsageAvg.entries,
        node.ResourceUsage.CpuUsageAvg.index x.1 > x.2) ∧
      ∃ x ∈ up.threshold.memUsageAvg.entries,
        node.ResourceUsage.MemUsageAvg.index x.1 > x.2) := by
  by_cases hc : ∃ x ∈ up.threshold.cpuUsageAvg.entries,
      node.ResourceUsage.CpuUsageAvg.index x.1 > x.2
  · rw [predicateFn_of_cpu up task node hc] at h
    exact Or.inl ⟨(Option.some.inj h).symm, hc⟩
  · by_cases hm : ∃ x ∈ up.threshold.memUsageAvg.entries,
        node.ResourceUsage.MemUsageAvg.index x.1 > x.2
    · rw [predicateFn_of_mem up task node hc hm] at h
      exact Or.inr ⟨(Option.some.inj h).symm, hc, hm⟩
    · rw [predicateFn_of_none up task node hc hm] at h
      cases h

/-- Counterexample to C11: two rejections of the same task on the same node
that differ in the violated window (`5m` / `10m`), in the observed value
(`9/10` / `4/5`) and in the ceiling (`1/2` / `7/10`) return one and the same
reason. -/
theorem predicateFn_reason_omits_window :
    (predicateFn ⟨1, ⟨GoMap.alloc [("5m", 1/2)], GoMap.nilMap⟩⟩ ⟨"default", "job-0"⟩
        ⟨"node-1", ⟨GoMap.alloc [("5m", 9/10)], GoMap.nilMap⟩⟩).isSome = true ∧
    (predicateFn ⟨1, ⟨GoMap.alloc [("10m", 7/10)], GoMap.nilMap⟩⟩ ⟨"default", "job-0"⟩
        ⟨"node-1", ⟨GoMap.alloc [("10m", 4/5)], GoMap.nilMap⟩⟩).isSome = true ∧
    predicateFn ⟨1, ⟨GoMap.alloc [("5m", 1/2)], GoMap.nilMap⟩⟩ ⟨"default", "job-0"⟩
        ⟨"node-1", ⟨GoMap.alloc [("5m", 9/10)], GoMap.nilMap⟩⟩ =
      predicateFn ⟨1, ⟨GoMap.alloc [("10m", 7/10)], GoMap.nilMap⟩⟩ ⟨"default", "job-0"⟩
        ⟨"node-1", ⟨GoMap.alloc [("10m", 4/5)], GoMap.nilMap⟩⟩ := by
  have hA : predicateFn ⟨1, ⟨GoMap.alloc [("5m", 1/2)], GoMap.nilMap⟩⟩ ⟨"default", "job-0"⟩
      ⟨"node-1", ⟨GoMap.alloc [("5m", 9/10)], GoMap.nilMap⟩⟩ =
      some (cpuReason ⟨1, ⟨GoMap.alloc [("5m", 1/2)], GoMap.nilMap⟩⟩ ⟨"default", "job-0"⟩
        ⟨"node-1", ⟨GoMap.alloc [("5m", 9/10)], GoMap.nilMap⟩⟩) := by
    apply predicateFn_of_cpu
    refine ⟨("5m", 1/2), by simp [entries_alloc], ?_⟩
    have hi : (GoMap.alloc [("5m", (9/10 : ℚ))]).index "5m" = 9/10 := index_of_lookup_some rfl
    show (GoMap.alloc [("5m", (9/10 : ℚ))]).index "5m" > 1/2
    rw [hi]; norm_num
  have hB : predicateFn ⟨1, ⟨GoMap.alloc [("10m", 7/10)], GoMap.nilMap⟩⟩ ⟨"default", "job-0"⟩
      ⟨"node-1", ⟨GoMap.alloc [("10m", 4/5)], GoMap.nilMap⟩⟩ =
      some (cpuReason ⟨1, ⟨GoMap.alloc [("10m", 7/10)], GoMap.nilMap⟩⟩ ⟨"default", "job-0"⟩
        ⟨"node-1", ⟨GoMap.alloc [("10m", 4/5)], GoMap.nilMap⟩⟩) := by
    apply predicateFn_of_cpu
    refine ⟨("10m", 7/10), by simp [entries_alloc], ?_⟩
    have hi : (GoMap.alloc [("10m", (4/5 : ℚ))]).index "10m" = 4/5 := index_of_lookup_some rfl
    show (GoMap.alloc [("10m", (4/5 : ℚ))]).index "10m" > 7/10
    rw [hi]; norm_num
  refine ⟨by rw [hA]; rfl, by rw [hB]; rfl, ?_⟩
  rw [hA, hB]
  rfl

/-- C11 (amended): whenever `predicateFn` rejects, the returned reason names
the metric kind (`cpu` or `mem`) of a threshold that the node's usage exceeds,
the task (namespace and name) and the node (name), and nothing else: a second
rejection of the same task on a node of the same name and for the same metric
kind returns the same reason, whatever window, observed value and ceiling it
comes from. -/
theorem predicateFn_reason_content (up : usagePlugin) (task : TaskInfo) (node : NodeInfo)
    (e : String) (h : predicateFn up task node = some e) :
    ((e = "plugin usage cpu usage predicates task " ++ task.Namespace ++ "/" ++ task.Name ++
          " is not allow to dispatch to node " ++ node.Name ∧
        ∃ x ∈ up.threshold.cpuUsageAvg.entries,
          node.ResourceUsage.CpuUsageAvg.index x.1 > x.2) ∨
      (e = "plugin usage mem usage predicates task " ++ task.Namespace ++ "/" ++ task.Name ++
          " is not allow to dispatch to node " ++ node.Name ∧
        ∃ x ∈ up.threshold.memUsageAvg.entries,
          node.ResourceUsage.MemUsageAvg.index x.1 > x.2)) ∧
    (∀ (up' : usagePlugin) (node' : NodeInfo) (e' : String),
      node'.Name = node.Name → predicateFn up' task node' = some e' →
      ((∃ x ∈ up'.threshold.cpuUsageAvg.entries,
          node'.ResourceUsage.CpuUsageAvg.index x.1 > x.2) ↔
        (∃ x ∈ up.threshold.cpuUsageAvg.entries,
          node.ResourceUsage.CpuUsageAvg.index x.1 > x.2)) →
      e' = e) := by
  refine ⟨?_, ?_⟩
  · rcases predicateFn_some_cases up task node e h with ⟨he, hx⟩ | ⟨he, _, hx⟩
    · exact Or.inl ⟨by rw [he, cpuReason_eq], hx⟩
    · exact Or.inr ⟨by rw [he, memReason_eq], hx⟩
  · intro up' node' e' hn h' hiff
    rcases predicateFn_some_cases up task node e h with ⟨he, hx⟩ | ⟨he, hnx, _⟩
    · rcases predicateFn_some_cases up' task node' e' h' with ⟨he', _⟩ | ⟨_, hnx', _⟩
      · rw [he, he', cpuReason_eq, cpuReason_eq, hn]
      · exact absurd (hiff.mpr hx) hnx'
    · rcases predicateFn_some_cases up' task node' e' h' with ⟨_, hx'⟩ | ⟨he', _, _⟩
      · exact absurd (hiff.mp hx') hnx
      · rw [he, he', memReason_eq, memReason_eq, hn]

/-- Witness of C11: a rejection on the `5m` CPU threshold and the reason it
returns. -/
theorem predicateFn_reason_content_witness :
    predicateFn ⟨1, ⟨GoMap.alloc [("5m", 1/2)], GoMap.nilMap⟩⟩ ⟨"default", "job-0"⟩
        ⟨"node-1", ⟨GoMap.alloc [("5m", 9/10)], GoMap.nilMap⟩⟩ =
      some "plugin usage cpu usage predicates task default/job-0 is not allow to dispatch to node node-1" ∧
    ("plugin usage cpu usage predicates task default/job-0 is not allow to dispatch to node node-1" =
        "plugin usage cpu usage predicates task " ++ "default" ++ "/" ++ "job-0" ++
          " is not allow to dispatch to node " ++ "node-1" ∧
        ∃ x ∈ (GoMap.alloc [("5m", (1/2 : ℚ))]).entries,
          (GoMap.alloc [("5m", (9/10 : ℚ))]).index x.1 > x.2) := by
  have h : predicateFn ⟨1, ⟨GoMap.alloc [("5m", 1/2)], GoMap.nilMap⟩⟩ ⟨"default", "job-0"⟩
      ⟨"node-1", ⟨GoMap.alloc [("5m", 9/10)], GoMap.nilMap⟩⟩ =
      some "plugin usage cpu usage predicates task default/job-0 is not allow to dispatch to node node-1" := by
    have hi : (GoMap.alloc [("5m", (9/10 : ℚ))]).index "5m" = 9/10 := index_of_lookup_some rfl
    have hgt : (GoMap.alloc [("5m", (9/10 : ℚ))]).index "5m" > 1/2 := by rw [hi]; norm_num
    simp only [predicateFn, entries_alloc, cpuLoop, if_pos hgt]
    decide
  refine ⟨h, ?_⟩
  rcases (predicateFn_reason_content _ _ _ _ h).1 with hc | hm
  · exact hc
  · exact absurd hm.1 (by decide)

/-- C12: a policy whose threshold configuration has no CPU ceiling and no
memory ceiling passes every task on every node, whatever the usage values of
the snapshot. -/
theorem predicateFn_empty_config (up : usagePlugin) (task : TaskInfo) (node : NodeInfo)
    (hc : up.threshold.cpuUsageAvg.entries = [])
    (hm : up.threshold.memUsageAvg.entries = []) :
    predicateFn up task node = none := by
  rw [predicateFn_eq_none_iff, hc, hm]
  simp

/-- Witness of C12: nil and allocated empty maps, usage values above `1`. -/
theorem predicateFn_empty_config_witness :
    predicateFn ⟨1, ⟨GoMap.nilMap, GoMap.alloc []⟩⟩ ⟨"default", "job-0"⟩
        ⟨"node-1", ⟨GoMap.alloc [("5m", 3/2)], GoMap.alloc [("5m", 250)]⟩⟩ = none :=
  predicateFn_empty_config ⟨1, ⟨GoMap.nilMap, GoMap.alloc []⟩⟩ ⟨"default", "job-0"⟩
    ⟨"node-1", ⟨GoMap.alloc [("5m", 3/2)], GoMap.alloc [("5m", 250)]⟩⟩ rfl rfl

/-- Counterexample to C16: the CPU ceiling `-1` is set for the window `10m`,
for which the snapshot has no CPU entry, so no CPU ceiling is violated; the
memory ceiling for `5m` is violated; yet the rejection carries the CPU reason,
not the memory reason. -/
theorem predicateFn_cpu_reason_without_cpu_violation :
    (¬ ∃ e ∈ (GoMap.alloc [("10m", (-1 : ℚ))]).entries,
        ∃ u, (GoMap.alloc [("5m", (1/10 : ℚ))]).lookup e.1 = some u ∧ u > e.2) ∧
    (∃ e ∈ (GoMap.alloc [("5m", (1/2 : ℚ))]).entries,
        ∃ u, (GoMap.alloc [("5m", (9/10 : ℚ))]).lookup e.1 = some u ∧ u > e.2) ∧
    predicateFn ⟨1, ⟨GoMap.alloc [("10m", -1)], GoMap.alloc [("5m", 1/2)]⟩⟩
        ⟨"default", "job-0"⟩
        ⟨"node-1", ⟨GoMap.alloc [("5m", 1/10)], GoMap.alloc [("5m", 9/10)]⟩⟩ =
      some "plugin usage cpu usage predicates task default/job-0 is not allow to dispatch to node node-1" ∧
    predicateFn ⟨1, ⟨GoMap.alloc [("10m", -1)], GoMap.alloc [("5m", 1/2)]⟩⟩
        ⟨"default", "job-0"⟩
        ⟨"node-1", ⟨GoMap.alloc [("5m", 1/10)], GoMap.alloc [("5m", 9/10)]⟩⟩ ≠
      some (memReason ⟨1, ⟨GoMap.alloc [("10m", -1)], GoMap.alloc [("5m", 1/2)]⟩⟩
        ⟨"default", "job-0"⟩
        ⟨"node-1", ⟨GoMap.alloc [("5m", 1/10)], GoMap.alloc [("5m", 9/10)]⟩⟩) := by
  have hi : (GoMap.alloc [("5m", (1/10 : ℚ))]).index "10m" = 0 := index_of_lookup_none rfl
  have hgt : (GoMap.alloc [("5m", (1/10 : ℚ))]).index "10m" > -1 := by rw [hi]; norm_num
  have hp : predicateFn ⟨1, ⟨GoMap.alloc [("10m", -1)], GoMap.alloc [("5m", 1/2)]⟩⟩
      ⟨"default", "job-0"⟩
      ⟨"node-1", ⟨GoMap.alloc [("5m", 1/10)], GoMap.alloc [("5m", 9/10)]⟩⟩ =
      some "plugin usage cpu usage predicates task default/job-0 is not allow to dispatch to node node-1" := by
    simp only [predicateFn, entries_alloc, cpuLoop, if_pos hgt]
    decide
  refine ⟨?_, ?_, hp, ?_⟩
  · rintro ⟨e, he, u, hu, _⟩
    simp only [entries_alloc, List.mem_singleton] at he
    subst he
    have hl : (GoMap.alloc [("5m", (1/10 : ℚ))]).lookup "10m" = none := rfl
    rw [hl] at hu
    cases hu
  · refine ⟨("5m", 1/2), by simp [entries_alloc], 9/10, rfl, ?_⟩
    norm_num
  · rw [hp]
    decide

/-- C16 (amended): whenever the snapshot has a CPU entry strictly above a CPU
ceiling, the rejection carries the CPU reason, also when a memory ceiling is
violated too; and for a policy whose ceilings are all non-negative, the
rejection carries the memory reason exactly when no CPU ceiling is violated
and some memory ceiling is. -/
theorem predicateFn_cpu_before_mem (up : usagePlugin) (task : TaskInfo) (node : NodeInfo) :
    ((∃ e ∈ up.threshold.cpuUsageAvg.entries,
        ∃ u, node.ResourceUsage.CpuUsageAvg.lookup e.1 = some u ∧ u > e.2) →
      predicateFn up task node = some (cpuReason up task node)) ∧
    ((∀ e ∈ up.threshold.cpuUsageAvg.entries, 0 ≤ e.2) →
      (∀ e ∈ up.threshold.memUsageAvg.entries, 0 ≤ e.2) →
      (predicateFn up task node = some (memReason up task node) ↔
        (¬ ∃ e ∈ up.threshold.cpuUsageAvg.entries,
            ∃ u, node.ResourceUsage.CpuUsageAvg.lookup e.1 = some u ∧ u > e.2) ∧
        (∃ e ∈ up.threshold.memUsageAvg.entries,
            ∃ u, node.ResourceUsage.MemUsageAvg.lookup e.1 = some u ∧ u > e.2))) := by
  refine ⟨?_, ?_⟩
  · rintro ⟨e, he, u, hu, hgt⟩
    refine predicateFn_of_cpu up task node ⟨e, he, ?_⟩
    rw [index_of_lookup_some hu]
    exact hgt
  · intro hcpu hmem
    have hc : (∃ e ∈ up.threshold.cpuUsageAvg.entries,
          ∃ u, node.ResourceUsage.CpuUsageAvg.lookup e.1 = some u ∧ u > e.2) ↔
        ∃ e ∈ up.threshold.cpuUsageAvg.entries,
          node.ResourceUsage.CpuUsageAvg.index e.1 > e.2 :=
      ⟨fun ⟨e, he, hx⟩ => ⟨e, he, (index_gt_iff (hcpu e he)).mpr hx⟩,
       fun ⟨e, he, hx⟩ => ⟨e, he, (index_gt_iff (hcpu e he)).mp hx⟩⟩
    have hm : (∃ e ∈ up.threshold.memUsageAvg.entries,
          ∃ u, node.ResourceUsage.MemUsageAvg.lookup e.1 = some u ∧ u > e.2) ↔
        ∃ e ∈ up.threshold.memUsageAvg.entries,
          node.ResourceUsage.MemUsageAvg.index e.1 > e.2 :=
      ⟨fun ⟨e, he, hx⟩ => ⟨e, he, (index_gt_iff (hmem e he)).mpr hx⟩,
       fun ⟨e, he, hx⟩ => ⟨e, he, (index_gt_iff (hmem e he)).mp hx⟩⟩
    rw [hc, hm]
    constructor
    · intro h
      rcases predicateFn_some_cases up task node _ h with ⟨he, _⟩ | ⟨_, hnx, hx⟩
      · exact absurd he.symm (cpuReason_ne_memReason up up task task node node)
      · exact ⟨hnx, hx⟩
    · rintro ⟨hnx, hx⟩
      exact predicateFn_of_mem up task node hnx hx

/-- Witness of C16: CPU and memory ceilings both violated, the CPU reason is
returned. -/
theorem predicateFn_cpu_before_mem_witness :
    predicateFn ⟨1, ⟨GoMap.alloc [("5m", 1/2)], GoMap.alloc [("5m", 1/2)]⟩⟩
        ⟨"default", "job-0"⟩
        ⟨"node-1", ⟨GoMap.alloc [("5m", 9/10)], GoMap.alloc [("5m", 9/10)]⟩⟩ =
      some (cpuReason ⟨1, ⟨GoMap.alloc [("5m", 1/2)], GoMap.alloc [("5m", 1/2)]⟩⟩
        ⟨"default", "job-0"⟩
        ⟨"node-1", ⟨GoMap.alloc [("5m", 9/10)], GoMap.alloc [("5m", 9/10)]⟩⟩) :=
  (predicateFn_cpu_before_mem ⟨1, ⟨GoMap.alloc [("5m", 1/2)], GoMap.alloc [("5m", 1/2)]⟩⟩
      ⟨"default", "job-0"⟩
      ⟨"node-1", ⟨GoMap.alloc [("5m", 9/10)], GoMap.alloc [("5m", 9/10)]⟩⟩).1
    ⟨("5m", 1/2), by simp [entries_alloc], 9/10, rfl, by norm_num⟩

/-- C17: for a fixed task and node snapshot, two policies that hold the same
CPU ceilings and the same memory ceilings in different enumeration orders get
the identical result from `predicateFn`: both nil, or the same error message,
also when several ceilings are violated at once. -/
theorem predicateFn_order_independent (up up' : usagePlugin) (task : TaskInfo)
    (node : NodeInfo)
    (hpc : up'.threshold.cpuUsageAvg.entries.Perm up.threshold.cpuUsageAvg.entries)
    (hpm : up'.threshold.memUsageAvg.entries.Perm up.threshold.memUsageAvg.entries) :
    predicateFn up' task node = predicateFn up task node := by
  have hc : (∃ e ∈ up'.threshold.cpuUsageAvg.entries,
        node.ResourceUsage.CpuUsageAvg.index e.1 > e.2) ↔
      ∃ e ∈ up.threshold.cpuUsageAvg.entries,
        node.ResourceUsage.CpuUsageAvg.index e.1 > e.2 :=
    ⟨fun ⟨e, he, hx⟩ => ⟨e, hpc.mem_iff.mp he, hx⟩,
     fun ⟨e, he, hx⟩ => ⟨e, hpc.mem_iff.mpr he, hx⟩⟩
  have hm : (∃ e ∈ up'.threshold.memUsageAvg.entries,
        node.ResourceUsage.MemUsageAvg.index e.1 > e.2) ↔
      ∃ e ∈ up.threshold.memUsageAvg.entries,
        node.ResourceUsage.MemUsageAvg.index e.1 > e.2 :=
    ⟨fun ⟨e, he, hx⟩ => ⟨e, hpm.mem_iff.mp he, hx⟩,
     fun ⟨e, he, hx⟩ => ⟨e, hpm.mem_iff.mpr he, hx⟩⟩
  by_cases h1 : ∃ e ∈ up.threshold.cpuUsageAvg.entries,
      node.ResourceUsage.CpuUsageAvg.index e.1 > e.2
  · rw [predicateFn_of_cpu up task node h1, predicateFn_of_cpu up' task node (hc.mpr h1)]
    rfl
  · by_cases h2 : ∃ e ∈ up.threshold.memUsageAvg.entries,
        node.ResourceUsage.MemUsageAvg.index e.1 > e.2
    · rw [predicateFn_of_mem up task node h1 h2,
        predicateFn_of_mem up' task node (fun h => h1 (hc.mp h)) (hm.mpr h2)]
      rfl
    · rw [predicateFn_of_none up task node h1 h2,
        predicateFn_of_none up' task node (fun h => h1 (hc.mp h)) (fun h => h2 (hm.mp h))]

/-- Witness of C17: two CPU ceilings violated at once, enumerated in the two
possible orders. -/
theorem predicateFn_order_independent_witness :
    predicateFn ⟨1, ⟨GoMap.alloc [("10m", 1/2), ("5m", 4/5)], GoMap.nilMap⟩⟩
        ⟨"default", "job-0"⟩
        ⟨"node-1", ⟨GoMap.alloc [("5m", 9/10), ("10m", 7/10)], GoMap.nilMap⟩⟩ =
      predicateFn ⟨1, ⟨GoMap.alloc [("5m", 4/5), ("10m", 1/2)], GoMap.nilMap⟩⟩
        ⟨"default", "job-0"⟩
        ⟨"node-1", ⟨GoMap.alloc [("5m", 9/10), ("10m", 7/10)], GoMap.nilMap⟩⟩ :=
  predicateFn_order_independent
    ⟨1, ⟨GoMap.alloc [("5m", 4/5), ("10m", 1/2)], GoMap.nilMap⟩⟩
    ⟨1, ⟨GoMap.alloc [("10m", 1/2), ("5m", 4/5)], GoMap.nilMap⟩⟩
    ⟨"default", "job-0"⟩
    ⟨"node-1", ⟨GoMap.alloc [("5m", 9/10), ("10m", 7/10)], GoMap.nilMap⟩⟩
    (List.Perm.swap _ _ _) (List.Perm.refl _)

/-- C18: if every ceiling `(window, c)` of policy `A` is matched in policy `B`
by a ceiling for the same window that is at most `c` (`B` may hold further
windows), then a node that `predicateFn` passes under `B` passes under `A`. -/
theorem predicateFn_config_monotone (A B : usagePlugin) (task : TaskInfo) (node : NodeInfo)
    (hc : ∀ e ∈ A.threshold.cpuUsageAvg.entries,
      ∃ e' ∈ B.threshold.cpuUsageAvg.entries, e'.1 = e.1 ∧ e'.2 ≤ e.2)
    (hm : ∀ e ∈ A.threshold.memUsageAvg.entries,
      ∃ e' ∈ B.threshold.memUsageAvg.entries, e'.1 = e.1 ∧ e'.2 ≤ e.2)
    (hB : predicateFn B task node = none) :
    predicateFn A task node = none := by
  rw [predicateFn_eq_none_iff] at hB ⊢
  refine ⟨fun e he hgt => ?_, fun e he hgt => ?_⟩
  · obtain ⟨e', he', hk, hle⟩ := hc e he
    refine hB.1 e' he' ?_
    rw [hk]
    exact lt_of_le_of_lt hle hgt
  · obtain ⟨e', he', hk, hle⟩ := hm e he
    refine hB.2 e' he' ?_
    rw [hk]
    exact lt_of_le_of_lt hle hgt

/-- Witness of C18: `B` holds a lower `5m` ceiling and a further `10m`
ceiling; the node passes under `B`, hence under `A`. -/
theorem predicateFn_config_monotone_witness :
    predicateFn ⟨1, ⟨GoMap.alloc [("5m", 4/5), ("10m", 1/2)], GoMap.nilMap⟩⟩
        ⟨"default", "job-0"⟩
        ⟨"node-1", ⟨GoMap.alloc [("5m", 3/5), ("10m", 2/5)], GoMap.nilMap⟩⟩ = none ∧
    predicateFn ⟨1, ⟨GoMap.alloc [("5m", 9/10)], GoMap.nilMap⟩⟩
        ⟨"default", "job-0"⟩
        ⟨"node-1", ⟨GoMap.alloc [("5m", 3/5), ("10m", 2/5)], GoMap.nilMap⟩⟩ = none := by
  have hB : predicateFn ⟨1, ⟨GoMap.alloc [("5m", 4/5), ("10m", 1/2)], GoMap.nilMap⟩⟩
      ⟨"default", "job-0"⟩
      ⟨"node-1", ⟨GoMap.alloc [("5m", 3/5), ("10m", 2/5)], GoMap.nilMap⟩⟩ = none := by
    have h5 : (GoMap.alloc [("5m", (3/5 : ℚ)), ("10m", 2/5)]).index "5m" = 3/5 :=
      index_of_lookup_some rfl
    have h10 : (GoMap.alloc [("5m", (3/5 : ℚ)), ("10m", 2/5)]).index "10m" = 2/5 :=
      index_of_lookup_some rfl
    have n5 : ¬ (GoMap.alloc [("5m", (3/5 : ℚ)), ("10m", 2/5)]).index "5m" > 4/5 := by
      rw [h5]; norm_num
    have n10 : ¬ (GoMap.alloc [("5m", (3/5 : ℚ)), ("10m", 2/5)]).index "10m" > 1/2 := by
      rw [h10]; norm_num
    simp only [predicateFn, entries_alloc, entries_nilMap, cpuLoop, memLoop, if_neg n5,
      if_neg n10]
  refine ⟨hB, predicateFn_config_monotone
    ⟨1, ⟨GoMap.alloc [("5m", 9/10)], GoMap.nilMap⟩⟩
    ⟨1, ⟨GoMap.alloc [("5m", 4/5), ("10m", 1/2)], GoMap.nilMap⟩⟩
    ⟨"default", "job-0"⟩
    ⟨"node-1", ⟨GoMap.alloc [("5m", 3/5), ("10m", 2/5)], GoMap.nilMap⟩⟩ ?_ ?_ hB⟩
  · intro e he
    simp only [entries_alloc, List.mem_singleton] at he
    subst he
    exact ⟨("5m", 4/5), by simp [entries_alloc], rfl, by norm_num⟩
  · intro e he
    simp [entries_nilMap] at he

/-! ## Construction: what a returned policy holds -/

/-- When the loop of `New` runs to its end from the nil maps, the maps are
still nil: a key that would be stored faults instead. -/
theorem newLoop_nil_ok (l : List (String × ℚ)) (st : thresholdConfig)
    (h : newLoop ⟨GoMap.nilMap, GoMap.nilMap⟩ l = .ok st) :
    st = ⟨GoMap.nilMap, GoMap.nilMap⟩ := by
  by_cases hk : ∃ e ∈ l, stringsContains e.1 cpuUsageAvgPrefix = true ∨
      stringsContains e.1 memUsageAvgPrefix = true
  · rw [newLoop_nil_fault l hk] at h
    cases h
  · have hno : ∀ e ∈ l, stringsContains e.1 cpuUsageAvgPrefix = false ∧
        stringsContains e.1 memUsageAvgPrefix = false := by
      intro e he
      constructor
      · cases hh : stringsContains e.1 cpuUsageAvgPrefix
        · rfl
        · exact absurd ⟨e, he, Or.inl hh⟩ hk
      · cases hh : stringsContains e.1 memUsageAvgPrefix
        · rfl
        · exact absurd ⟨e, he, Or.inr hh⟩ hk
    rw [newLoop_unrecognized _ l hno] at h
    exact (Except.ok.inj h).symm

/-- A policy returned by `New` holds the two nil maps it started from. -/
theorem New_ok_threshold (args : Arguments) (p : usagePlugin) (hp : New args = .ok p) :
    p.threshold = ⟨GoMap.nilMap, GoMap.nilMap⟩ := by
  unfold New at hp
  cases ha : assertFloatMap (args.get thresholdSection) with
  | error f => simp [ha] at hp
  | ok raw =>
    cases hl : newLoop ⟨GoMap.nilMap, GoMap.nilMap⟩ raw.entries with
    | error f => simp [ha, hl] at hp
    | ok st =>
      simp only [ha, hl, Except.ok.injEq] at hp
      rw [← hp]
      exact newLoop_nil_ok raw.entries st hl

/-! ## Construction: what the result tells about unknown keys -/

/-- Keys that hold neither token can be dropped from the enumeration without
changing what the loop of `New` computes. -/
theorem newLoop_filter_recognized (st : thresholdConfig) (l : List (String × ℚ)) :
    newLoop st (l.filter (fun e => stringsContains e.1 cpuUsageAvgPrefix ||
      stringsContains e.1 memUsageAvgPrefix)) = newLoop st l := by
  induction l generalizing st with
  | nil => rfl
  | cons x rest ih =>
    obtain ⟨k, v⟩ := x
    cases hc : stringsContains k cpuUsageAvgPrefix with
    | true =>
      have hf : (fun e : String × ℚ => stringsContains e.1 cpuUsageAvgPrefix ||
          stringsContains e.1 memUsageAvgPrefix) (k, v) = true := by
        simp [hc]
      rw [List.filter_cons, if_pos hf]
      simp only [newLoop]
      cases newLoopBody st k v with
      | error f => rfl
      | ok s => exact ih s
    | false =>
      cases hm : stringsContains k memUsageAvgPrefix with
      | true =>
        have hf : (fun e : String × ℚ => stringsContains e.1 cpuUsageAvgPrefix ||
            stringsContains e.1 memUsageAvgPrefix) (k, v) = true := by
          simp [hm]
        rw [List.filter_cons, if_pos hf]
        simp only [newLoop]
        cases newLoopBody st k v with
        | error f => rfl
        | ok s => exact ih s
      | false =>
        have hf : ¬ (fun e : String × ℚ => stringsContains e.1 cpuUsageAvgPrefix ||
            stringsContains e.1 memUsageAvgPrefix) (k, v) = true := by
          simp [hc, hm]
        rw [List.filter_cons, if_neg hf]
        simp only [newLoop, newLoopBody_unrecognized st k v hc hm]
        exact ih st

/-- Counterexample to C14: `New` returns the same value for `{Foo.5m: 10}`,
whose one key matches neither prefix, and for the empty `thresholds` map,
which has no such key; so no list read off the result of `New` holds one
warning in the first case and none in the second.  The key `CpuUsageAvg.`,
whose window label is empty, yields no warning either: `New` panics. -/
theorem New_result_same_with_unknown_key :
    stringsHasPrefix "Foo.5m" "CpuUsageAvg." = false ∧
    stringsHasPrefix "Foo.5m" "MemUsageAvg." = false ∧
    New [("thresholds", ArgValue.floatMap (GoMap.alloc [("Foo.5m", 10)]))] =
      .ok ⟨1, ⟨GoMap.nilMap, GoMap.nilMap⟩⟩ ∧
    New [("thresholds", ArgValue.floatMap (GoMap.alloc []))] =
      .ok ⟨1, ⟨GoMap.nilMap, GoMap.nilMap⟩⟩ ∧
    (∀ (W : Type) (warnings : Except Fault usagePlugin → List W),
      ¬ ((warnings (New [("thresholds",
            ArgValue.floatMap (GoMap.alloc [("Foo.5m", 10)]))])).length = 1 ∧
        (warnings (New [("thresholds", ArgValue.floatMap (GoMap.alloc []))])).length = 0)) ∧
    stringsReplace1 "CpuUsageAvg." cpuUsageAvgPrefix "" = "" ∧
    New [("thresholds", ArgValue.floatMap (GoMap.alloc [("CpuUsageAvg.", 1)]))] =
      .error Fault.nilMapWrite := by
  have h1 : New [("thresholds", ArgValue.floatMap (GoMap.alloc [("Foo.5m", 10)]))] =
      .ok ⟨1, ⟨GoMap.nilMap, GoMap.nilMap⟩⟩ := rfl
  have h0 : New [("thresholds", ArgValue.floatMap (GoMap.alloc []))] =
      .ok ⟨1, ⟨GoMap.nilMap, GoMap.nilMap⟩⟩ := rfl
  refine ⟨by decide, by decide, h1, h0, ?_, by decide, rfl⟩
  intro W warnings
  rw [h1, h0]
  rintro ⟨ha, hb⟩
  rw [ha] at hb
  exact absurd hb (by decide)

/-- C14 (amended): `New` returns the policy (or panics) and nothing else, and
what it returns does not depend on the raw keys that contain neither
`CpuUsageAvg.` nor `MemUsageAvg.`: two argument sets with the same weight
setting whose `thresholds` maps differ only by such keys get the same result,
so the result carries no warning about them. -/
theorem New_result_ignores_unknown_keys (args args' : Arguments) (raw raw' : GoMap)
    (hsec : args.get thresholdSection = some (ArgValue.floatMap raw))
    (hsec' : args'.get thresholdSection = some (ArgValue.floatMap raw'))
    (hw : args'.GetInt 1 "usage.weight" = args.GetInt 1 "usage.weight")
    (hraw : raw'.entries = raw.entries.filter (fun e =>
      stringsContains e.1 "CpuUsageAvg." || stringsContains e.1 "MemUsageAvg.")) :
    New args' = New args := by
  rw [New_of_section args raw hsec, New_of_section args' raw' hsec', hraw, hw]
  have := newLoop_filter_recognized ⟨GoMap.nilMap, GoMap.nilMap⟩ raw.entries
  rw [show (fun e : String × ℚ => stringsContains e.1 "CpuUsageAvg." ||
      stringsContains e.1 "MemUsageAvg.") = (fun e => stringsContains e.1 cpuUsageAvgPrefix ||
      stringsContains e.1 memUsageAvgPrefix) from rfl, this]

/-- Witness of C14: `{Foo.5m: 10}` and the empty map give the same result. -/
theorem New_result_ignores_unknown_keys_witness :
    New [("thresholds", ArgValue.floatMap (GoMap.alloc []))] =
      New [("thresholds", ArgValue.floatMap (GoMap.alloc [("Foo.5m", 10)]))] :=
  New_result_ignores_unknown_keys
    [("thresholds", ArgValue.floatMap (GoMap.alloc [("Foo.5m", 10)]))]
    [("thresholds", ArgValue.floatMap (GoMap.alloc []))]
    (GoMap.alloc [("Foo.5m", 10)]) (GoMap.alloc []) rfl rfl rfl
    (by
      have h : (stringsContains "Foo.5m" "CpuUsageAvg." ||
          stringsContains "Foo.5m" "MemUsageAvg.") = false := by decide
      simp [entries_alloc, h])

end Usage
